import Mathlib

/-!
Verification development for the ai-meeting-assistant backend
(`src/backend/main.py`).  The two endpoint handlers `process_meeting`
(`POST /process-meeting`) and `diarize_meeting`
(`POST /meetings/{meeting_id}/diarize`) are shallowly embedded as pure
Lean functions over an explicit environment that supplies the behaviour
of the external collaborators (audio fetch, Whisper transcription, GPT
completions, the Supabase record store, the Expo push gateway).

Python strings are modelled as `List Char` (a Python `str` is a sequence
of code points).  JSON values are modelled by the inductive `JValue`;
JSON numbers are modelled as integers (none of the verified claims
involve non-integer numerics), and `\uXXXX` string escapes are not
modelled.  Python dicts produced by `json.loads` are modelled as
association lists in parse order, with all accessors (`[]`, `.get`,
`in`, iteration) giving the later duplicate key precedence exactly as a
Python dict built by repeated insertion would.
-/

/-- JSON values, as produced by `json.loads`. -/
inductive JValue where
  | null : JValue
  | bool : Bool → JValue
  | num : Int → JValue
  | str : List Char → JValue
  | arr : List JValue → JValue
  | obj : List (List Char × JValue) → JValue

/-- Python truthiness (`bool(x)`) of a decoded JSON value:
`None`, `False`, `0`, `""`, `[]` and `{}` are falsy. -/
def pyTruthy : JValue → Bool
  | .null => false
  | .bool b => b
  | .num n => n != 0
  | .str s => !s.isEmpty
  | .arr l => !l.isEmpty
  | .obj l => !l.isEmpty

/-- Dict lookup `d[k]` / `k in d` support: last duplicate key wins,
matching a Python dict built by insertion. Returns `none` when the key
is absent (Python raises `KeyError`). -/
def pyGetKey (fields : List (List Char × JValue)) (k : List Char) : Option JValue :=
  fields.foldl (fun acc p => if p.1 == k then some p.2 else acc) none

/-- Python `d.get(k, default)`. -/
def pyGetD (fields : List (List Char × JValue)) (k : List Char) (d : JValue) : JValue :=
  (pyGetKey fields k).getD d

/-- Python `k in d` for a dict. -/
def hasKey (fields : List (List Char × JValue)) (k : List Char) : Bool :=
  (pyGetKey fields k).isSome

/-- Equality as used by Python dict key lookup on hashable JSON values
(`True == 1`, `False == 0`). Containers are unhashable and never occur
as dict keys (the pipelines raise `TypeError` before inserting one), so
their comparison result is irrelevant; we return `false`. -/
def pyKeyEq : JValue → JValue → Bool
  | .null, .null => true
  | .bool a, .bool b => a == b
  | .bool a, .num n => (if a then (1 : Int) else 0) == n
  | .num n, .bool a => n == (if a then (1 : Int) else 0)
  | .num a, .num b => a == b
  | .str a, .str b => a == b
  | _, _ => false

/-- Lookup in a dict represented as an insertion-ordered pair list
(`d.get(k, default)` with Python key equality; later insertions win). -/
def pyDictGet (m : List (JValue × JValue)) (k : JValue) (d : JValue) : JValue :=
  m.foldl (fun acc p => if pyKeyEq p.1 k then p.2 else acc) d

/-- Keys of a dict in first-insertion order (Python dict iteration
order), with duplicates removed keeping the first occurrence. -/
def dedupKeys : List (List Char × JValue) → List (List Char) → List (List Char)
  | [], _ => []
  | p :: rest, seen =>
      if seen.contains p.1 then dedupKeys rest seen
      else p.1 :: dedupKeys rest (p.1 :: seen)

mutual
/-- Python `repr()` of a decoded JSON value.  Strings are rendered
between single quotes without escaping; the pipelines only ever render
plain strings, so the escaping corner of `repr` is not modelled. -/
def pyRepr : JValue → List Char
  | .null => "None".toList
  | .bool true => "True".toList
  | .bool false => "False".toList
  | .num n => (toString n).toList
  | .str s => '\'' :: (s ++ ['\''])
  | .arr l => '[' :: (pyReprList l ++ [']'])
  | .obj l => '\x7b' :: (pyReprPairs l ++ ['\x7d'])

/-- Comma-separated `repr`s of list elements. -/
def pyReprList : List JValue → List Char
  | [] => []
  | [v] => pyRepr v
  | v :: rest => pyRepr v ++ ", ".toList ++ pyReprList rest

/-- Comma-separated `'key': repr(value)` pairs. -/
def pyReprPairs : List (List Char × JValue) → List Char
  | [] => []
  | [p] => '\'' :: (p.1 ++ "': ".toList) ++ pyRepr p.2
  | p :: rest => ('\'' :: (p.1 ++ "': ".toList) ++ pyRepr p.2) ++ ", ".toList ++ pyReprPairs rest
end

/-- Python `str()` of a decoded JSON value (as used by f-string
interpolation): identity on strings, `repr` otherwise. -/
def pyStr : JValue → List Char
  | .str s => s
  | v => pyRepr v

/-- Characters stripped by Python `str.strip()` with no arguments
(ASCII whitespace; exotic Unicode space code points are not modelled —
no verified claim depends on them). -/
def isPySpace (c : Char) : Bool :=
  c == ' ' || c == '\t' || c == '\n' || c == '\r' || c == '\x0b' || c == '\x0c'

/-- Remove leading Python whitespace. -/
def trimLeft (l : List Char) : List Char := l.dropWhile isPySpace

/-- Remove trailing Python whitespace. -/
def trimRight : List Char → List Char
  | [] => []
  | c :: rest =>
      let r := trimRight rest
      if r.isEmpty && isPySpace c then [] else c :: r

/-- Python `str.strip()`. -/
def pyStrip (l : List Char) : List Char := trimRight (trimLeft l)

/-- The backtick character (code point 96). -/
def btick : Char := Char.ofNat 96

/-- Does the text start with a markdown fence delimiter (three
backticks)?  Mirrors `response_text.startswith("```")`. -/
def startsWithTriple : List Char → Bool
  | a :: b :: c :: _ => a == btick && b == btick && c == btick
  | _ => false

/-- The prefix of the text before the next occurrence of three
backticks (the whole text when there is none): this is what
`text.split("```")` contributes to the chunk that follows an occurrence. -/
def takeBeforeTriple : List Char → List Char
  | [] => []
  | c :: rest =>
      if startsWithTriple (c :: rest) then []
      else c :: takeBeforeTriple rest

/-- Does the text contain three consecutive backticks anywhere? -/
def hasTriple : List Char → Bool
  | [] => false
  | c :: rest => startsWithTriple (c :: rest) || hasTriple rest

/-- The markdown fence-stripping step shared by both handlers
(`main.py` lines 154–158 and 358–362):

    if response_text.startswith("```"):
        response_text = response_text.split("```")[1]
        if response_text.startswith("json"):
            response_text = response_text[4:]
        response_text = response_text.strip()

Given the guard, `split("```")[1]` is exactly the text between the
leading fence and the next fence occurrence (or the end). -/
def stripFences (s : List Char) : List Char :=
  if startsWithTriple s then
    let s1 := takeBeforeTriple (s.drop 3)
    let s2 := if s1.take 4 = "json".toList then s1.drop 4 else s1
    pyStrip s2
  else s

/-- Python `pat in s` for strings: substring occurrence. -/
def hasSub (pat : List Char) : List Char → Bool
  | [] => pat.isEmpty
  | c :: rest => pat.isPrefixOf (c :: rest) || hasSub pat rest

/-! ## A model of `json.loads`

A fuel-indexed recursive-descent parser for the JSON grammar.  Faithful
to Python's strict decoder on the fragment the pipelines exercise:
whitespace between tokens, strings with the single-character escapes,
rejection of raw control characters inside strings, no leading zeros,
and rejection of trailing data.  Not modelled: `\uXXXX` escapes and
non-integer numbers (such inputs make this parser fail where Python
would succeed; no verified claim depends on them). -/

/-- JSON token whitespace (`json.loads` skips exactly these). -/
def isJsonWs (c : Char) : Bool :=
  c == ' ' || c == '\t' || c == '\n' || c == '\r'

/-- Skip JSON whitespace. -/
def skipWs (l : List Char) : List Char := l.dropWhile isJsonWs

/-- Single-character string escapes of JSON. -/
def escChar (c : Char) : Option Char :=
  match c with
  | 'n' => some '\n'
  | 't' => some '\t'
  | 'r' => some '\r'
  | 'b' => some '\x08'
  | 'f' => some '\x0c'
  | '"' => some '"'
  | '\\' => some '\\'
  | '/' => some '/'
  | _ => none

/-- Parse the body of a JSON string after the opening quote; returns
the decoded content and the input after the closing quote. -/
def parseStrBody : List Char → Option (List Char × List Char)
  | [] => none
  | '"' :: rest => some ([], rest)
  | '\\' :: rest =>
      match rest with
      | [] => none
      | e :: rest' =>
          match escChar e with
          | none => none
          | some c =>
              match parseStrBody rest' with
              | none => none
              | some (s, r) => some (c :: s, r)
  | c :: rest =>
      if c.toNat < 32 then none
      else
        match parseStrBody rest with
        | none => none
        | some (s, r) => some (c :: s, r)

/-- Decimal value of a digit run. -/
def digitsToNat (ds : List Char) : Nat :=
  ds.foldl (fun a c => a * 10 + (c.toNat - '0'.toNat)) 0

/-- Parse a JSON integer at the head of the input. -/
def parseNumFrom (l : List Char) : Option (Int × List Char) :=
  let (neg, l1) := match l with
    | '-' :: rest => (true, rest)
    | _ => (false, l)
  let ds := l1.takeWhile Char.isDigit
  let rest := l1.dropWhile Char.isDigit
  if ds.isEmpty then none
  else if ds.length > 1 && ds.headI = '0' then none
  else
    let n : Int := Int.ofNat (digitsToNat ds)
    some (if neg then -n else n, rest)

mutual
/-- Parse one JSON value (leading whitespace allowed). -/
def parseVal : Nat → List Char → Option (JValue × List Char)
  | 0, _ => none
  | fuel + 1, l =>
      match skipWs l with
      | [] => none
      | '"' :: rest =>
          match parseStrBody rest with
          | none => none
          | some (s, r) => some (.str s, r)
      | '[' :: rest =>
          (match skipWs rest with
           | ']' :: r2 => some (.arr [], r2)
           | r1 =>
             match parseItems fuel r1 with
             | none => none
             | some (items, r2) => some (.arr items, r2))
      | '\x7b' :: rest =>
          (match skipWs rest with
           | '\x7d' :: r2 => some (.obj [], r2)
           | r1 =>
             match parseMembers fuel r1 with
             | none => none
             | some (ms, r2) => some (.obj ms, r2))
      | 't' :: rest =>
          if rest.take 3 = "rue".toList then some (.bool true, rest.drop 3) else none
      | 'f' :: rest =>
          if rest.take 4 = "alse".toList then some (.bool false, rest.drop 4) else none
      | 'n' :: rest =>
          if rest.take 3 = "ull".toList then some (.null, rest.drop 3) else none
      | l' =>
          match parseNumFrom l' with
          | none => none
          | some (n, r) => some (.num n, r)

/-- Parse the comma-separated items of a non-empty JSON array and the
closing bracket. -/
def parseItems : Nat → List Char → Option (List JValue × List Char)
  | 0, _ => none
  | fuel + 1, l =>
      match parseVal fuel l with
      | none => none
      | some (v, r) =>
          match skipWs r with
          | ',' :: r' =>
              (match parseItems fuel r' with
               | none => none
               | some (vs, r2) => some (v :: vs, r2))
          | ']' :: r' => some ([v], r')
          | _ => none

/-- Parse the comma-separated members of a non-empty JSON object and
the closing brace. -/
def parseMembers : Nat → List Char → Option (List (List Char × JValue) × List Char)
  | 0, _ => none
  | fuel + 1, l =>
      match skipWs l with
      | '"' :: rest =>
          (match parseStrBody rest with
           | none => none
           | some (k, r) =>
             match skipWs r with
             | ':' :: r1 =>
                 (match parseVal fuel r1 with
                  | none => none
                  | some (v, r2) =>
                    match skipWs r2 with
                    | ',' :: r3 =>
                        (match parseMembers fuel r3 with
                         | none => none
                         | some (ms, r4) => some ((k, v) :: ms, r4))
                    | '\x7d' :: r3 => some ([(k, v)], r3)
                    | _ => none)
             | _ => none)
      | _ => none
end

/-- Model of `json.loads`: parse one value and require only whitespace
after it. -/
def jsonParse (l : List Char) : Option JValue :=
  match parseVal (2 * l.length + 8) l with
  | none => none
  | some (v, rest) => if (skipWs rest).isEmpty then some v else none

/-- The full response-parsing step both handlers apply to a model
response: `content.strip()`, markdown-fence stripping, `json.loads`.
`none` models `json.JSONDecodeError`. -/
def respParse (content : List Char) : Option JValue :=
  jsonParse (stripFences (pyStrip content))

/-! ## The record store

`supabase.table("meetings").update(payload).eq("id", meeting_id)` issues
a partial-field update.  A payload is modelled by one optional slot per
column the handlers ever write; `none` means the column is absent from
the update dict.  A stored SQL `NULL` reads back as Python `None`, i.e.
`JValue.null`. -/

/-- One `update` payload sent to the meetings table. -/
structure UpdatePayload where
  status : Option JValue := none
  transcript : Option JValue := none
  summary : Option JValue := none
  title : Option JValue := none
  diarization_json : Option JValue := none
  transcript_diarized : Option JValue := none

/-- A meetings row, with the columns the handlers read or write. -/
structure Meeting where
  status : JValue := .null
  transcript : JValue := .null
  summary : JValue := .null
  title : JValue := .null
  diarization_json : JValue := .null
  transcript_diarized : JValue := .null

/-- Effect of an applied update payload on a row. -/
def applyPayload (m : Meeting) (w : UpdatePayload) : Meeting where
  status := w.status.getD m.status
  transcript := w.transcript.getD m.transcript
  summary := w.summary.getD m.summary
  title := w.title.getD m.title
  diarization_json := w.diarization_json.getD m.diarization_json
  transcript_diarized := w.transcript_diarized.getD m.transcript_diarized

/-- Behaviour of one `update(...).execute()` call: it can succeed with
a non-empty `data`, succeed with empty `data` (no row matched), or
raise (store/network error). -/
inductive UpdateBehavior where
  | ok : UpdateBehavior
  | noRows : UpdateBehavior
  | exn : UpdateBehavior

/-! ## The meeting-processing pipeline (`POST /process-meeting`) -/

/-- External-collaborator behaviour for one `process_meeting` run.
`fetch` covers `requests.get` + `raise_for_status` (an error is any
transport failure or non-2xx status); `transcribe` the Whisper call;
`analyze` the GPT chat completion, as the raw message content. -/
structure ProcEnv where
  pushToken : Option (List Char) := none
  fetch : Except Unit Unit := .ok ()
  transcribe : Except Unit (List Char) := .ok []
  analyze : Except Unit (List Char) := .ok []
  updateReady : UpdateBehavior := .ok
  updateFailed : UpdateBehavior := .ok
  push : Except Unit Unit := .ok ()

/-- Observable side effects of one run: the transcript text embedded in
the analysis prompt, the value of the `truncated` flag, the update
payloads issued to the store in order, and whether the push call was
attempted. -/
structure ProcEffects where
  structInput : Option (List Char) := none
  truncated : Bool := false
  writes : List UpdatePayload := []
  pushAttempted : Bool := false

/-- What the endpoint gives back to its caller: the structured success
body `\x7bok: true, status: "ready", ...\x7d`, the structured failure body
`\x7bok: false, status: "processing_failed", ...\x7d`, or a raised
`HTTPException` with the given status code (a transport-level failure). -/
inductive ProcResult where
  | ok : ProcResult
  | failed : ProcResult
  | httpExn : Nat → ProcResult

/-- The fixed retry-prompt summary written on fatal failure. -/
def retrySummary : List Char :=
  "AI processing failed. Please try recording again.".toList

/-- The fixed degraded-success summary written on parse failure. -/
def degradedSummary : List Char :=
  "Analysis completed but structured parsing failed. Transcript saved successfully.".toList

/-- The truncation footnote appended to the summary. -/
def truncNote : List Char :=
  "\n\n*(Note: Transcript was truncated for analysis)*".toList

/-- The payload of the best-effort failure persist in the top-level
exception handler. -/
def failWrite : UpdatePayload :=
  { status := some (.str "processing_failed".toList)
    transcript := some .null
    summary := some (.str retrySummary) }

/-- The truncation policy: `raw_transcript[:MAX_TRANSCRIPT_LENGTH]`
when longer than 20000 characters. -/
def truncate20k (l : List Char) : List Char :=
  if l.length > 20000 then l.take 20000 else l

/-- One `formatted_summary += f"- \x7bpoint\x7d\n"` loop plus its section
header, guarded by the truthiness of the decoded list.  Returns `none`
on the dynamic `TypeError` Python raises when a truthy non-iterable is
iterated; iterating a string yields its characters and iterating a dict
yields its keys, as in Python. -/
def appendBullets (s : List Char) (header : List Char) (v : JValue) : Option (List Char) :=
  if pyTruthy v then
    match v with
    | .arr l =>
        some (s ++ header ++ l.foldl (fun acc e => acc ++ "- ".toList ++ pyStr e ++ "\n".toList) [])
    | .str cs =>
        some (s ++ header ++ cs.foldl (fun acc c => acc ++ "- ".toList ++ [c] ++ "\n".toList) [])
    | .obj fields =>
        some (s ++ header ++ (dedupKeys fields []).foldl
          (fun acc k => acc ++ "- ".toList ++ k ++ "\n".toList) [])
    | _ => none
  else some s

/-- Assembly of `formatted_summary` from the decoded `summary`,
`key_points` and `action_items` values plus the truncation footnote.
Returns `none` on the dynamic errors Python raises on a non-string
summary (`TypeError` on `+=` or `AttributeError` on `.strip()`), which
escape the parse handler to the top-level one. -/
def buildFormattedSummary (summaryV kp ai : JValue) (truncated : Bool) : Option (List Char) :=
  match summaryV with
  | .str s =>
      match appendBullets s "\n\n**Key Points:**\n".toList kp with
      | none => none
      | some s1 =>
          match appendBullets s1 "\n**Action Items:**\n".toList ai with
          | none => none
          | some s2 => some (if truncated then s2 ++ truncNote else s2)
  | _ => none

/-- Python `x[:30]`, as applied to `parsed_analysis.get("title", "")`:
defined on strings and lists, `TypeError` (`none`) otherwise. -/
def pySlice30 : JValue → Option JValue
  | .str s => some (.str (s.take 30))
  | .arr l => some (.arr (l.take 30))
  | _ => none

/-- Outcome of the analysis-parsing block (`main.py` lines 354–401):
either the `(final_transcript, final_summary, meeting_title)` triple
reaching the persist step, or an uncaught dynamic error that falls
through to the top-level exception handler.  The `except` clause there
catches only `json.JSONDecodeError` and `KeyError`; a decode failure
takes the degraded branch (`meeting_title` stays unbound, so `None` is
persisted for it), while `.get` on a non-dict or slicing/concatenating
non-string values raises `AttributeError`/`TypeError`, which that
clause does not catch. -/
inductive AnalysisOut where
  | out : JValue → List Char → JValue → AnalysisOut
  | dynErr : AnalysisOut

/-- The field extraction and summary assembly on a decoded object
(`main.py` lines 366–389). -/
def analysisObjOutcome (fields : List (List Char × JValue)) (raw : List Char)
    (truncated : Bool) : AnalysisOut :=
  match pySlice30 (pyGetD fields "title".toList (.str [])) with
  | none => .dynErr
  | some titleJ =>
      match buildFormattedSummary (pyGetD fields "summary".toList (.str []))
          (pyGetD fields "key_points".toList (.arr []))
          (pyGetD fields "action_items".toList (.arr [])) truncated with
      | none => .dynErr
      | some fs =>
          .out (pyGetD fields "clean_transcript".toList (.str raw)) (pyStrip fs) titleJ

/-- The analysis-parsing block. -/
def analysisOutcome (parsed : Option JValue) (raw : List Char) (truncated : Bool) : AnalysisOut :=
  match parsed with
  | none =>
      .out (.str raw) (degradedSummary ++ if truncated then truncNote else []) .null
  | some (.obj fields) => analysisObjOutcome fields raw truncated
  | some _ => .dynErr

/-- The payload of the success persist (`main.py` lines 406–411). -/
def readyWriteOf (ft : JValue) (fs : List Char) (titleJ : JValue) : UpdatePayload :=
  { status := some (.str "ready".toList)
    transcript := some ft
    summary := some (.str fs)
    title := some titleJ }

/-- The generic top-level exception handler: best-effort persist of the
failure status (its own errors are swallowed), then the structured
`\x7bok: false\x7d` body.  The payload is recorded as issued whether or
not the store accepts it. -/
def failurePath (eff : ProcEffects) : ProcResult × ProcEffects :=
  (.failed, { eff with writes := eff.writes ++ [failWrite] })

/-- The notification step: attempted only when a push token is present;
any push failure is swallowed. -/
def notifyStep (env : ProcEnv) (eff : ProcEffects) : ProcResult × ProcEffects :=
  match env.pushToken with
  | none => (.ok, eff)
  | some _ =>
      match env.push with
      | .ok _ => (.ok, { eff with pushAttempted := true })
      | .error _ => (.ok, { eff with pushAttempted := true })

/-- Step 4 of the handler: issue the success persist, treat empty
`data` as a raised `HTTPException(500)` (re-raised at the top level,
`main.py` lines 413–417 and 466–467), treat a store exception as a
generic fatal error, and otherwise go on to the notification step. -/
def readyPersistStep (env : ProcEnv) (eff1 : ProcEffects)
    (ft : JValue) (fs : List Char) (titleJ : JValue) : ProcResult × ProcEffects :=
  let eff2 := { eff1 with writes := [readyWriteOf ft fs titleJ] }
  match env.updateReady with
  | .exn => failurePath eff2
  | .noRows => (.httpExn 500, eff2)
  | .ok => notifyStep env eff2

/-- Dispatch on the outcome of the analysis-parsing block. -/
def afterAnalysis (env : ProcEnv) (eff1 : ProcEffects) (o : AnalysisOut) :
    ProcResult × ProcEffects :=
  match o with
  | .dynErr => failurePath eff1
  | .out ft fs titleJ => readyPersistStep env eff1 ft fs titleJ

/-- The `POST /process-meeting` handler (`main.py` lines 258–488). -/
def process_meeting (env : ProcEnv) : ProcResult × ProcEffects :=
  match env.fetch with
  | .error _ => failurePath {}
  | .ok _ =>
    match env.transcribe with
    | .error _ => failurePath {}
    | .ok raw0 =>
      let truncated := decide (raw0.length > 20000)
      let raw := truncate20k raw0
      let eff1 : ProcEffects := { structInput := some raw, truncated := truncated }
      match env.analyze with
      | .error _ => failurePath eff1
      | .ok content =>
        afterAnalysis env eff1 (analysisOutcome (respParse content) raw truncated)

/-! ## The diarization pipeline (`POST /meetings/{meeting_id}/diarize`) -/

/-- External-collaborator behaviour for one `diarize_meeting` call:
the stored row (if any), the two possible GPT calls (structured, then
plain-text fallback), and the two possible store updates. -/
structure DiarEnv where
  meeting : Option Meeting := none
  llm1 : Except Unit (List Char) := .ok []
  llm2 : Except Unit (List Char) := .ok []
  update1 : UpdateBehavior := .ok
  update2 : UpdateBehavior := .ok

/-- Observable side effects of one call: how many GPT completions were
issued and which update payloads were sent to the store. -/
structure DiarEffects where
  llmCalls : Nat := 0
  writes : List UpdatePayload := []

/-- The JSON body of a non-error response of the endpoint (the
`meeting_id` echo is omitted; keys absent from the corresponding dict
literal in the source are `none`). -/
structure DiarBody where
  statusMsg : List Char := "success".toList
  diarized : Bool
  cached : Option Bool := none
  diarization : Option JValue := none
  error : Option (List Char) := none
  fallback : Option Bool := none

/-- Result of a call: a raised `HTTPException` with its status code, or
a structured body. -/
inductive DiarOutcome where
  | http : Nat → DiarOutcome
  | ok : DiarBody → DiarOutcome

/-- Result of the post-parse structured-diarization block: a value
(`transcript_diarized` text) for the persist step, an error of the
caught kinds (`ValueError`/`KeyError`) diverting to the plain-text
fallback, or an uncaught `TypeError` escaping to the generic
500 handler. -/
inductive DynRes (α : Type) where
  | okRes : α → DynRes α
  | fallbackErr : DynRes α
  | fatalErr : DynRes α

/-- Building `speaker_map = \x7bs["id"]: s["label"] for s in speakers\x7d`.
Missing `id`/`label` keys raise `KeyError` (caught: fallback); a
non-dict element, a truthy non-iterable, or an unhashable id raises
`TypeError` (uncaught: 500).  Iterating a non-empty string yields
one-character strings and iterating a non-empty dict yields its string
keys; subscripting those with `"id"` raises `TypeError`. -/
def buildSpeakerMapGo : List JValue → List (JValue × JValue) → DynRes (List (JValue × JValue))
  | [], acc => .okRes acc
  | s :: rest, acc =>
      match s with
      | .obj sf =>
          (match pyGetKey sf "id".toList with
           | none => .fallbackErr
           | some idv =>
             match pyGetKey sf "label".toList with
             | none => .fallbackErr
             | some lv =>
               match idv with
               | .arr _ => .fatalErr
               | .obj _ => .fatalErr
               | _ => buildSpeakerMapGo rest (acc ++ [(idv, lv)]))
      | _ => .fatalErr

/-- Dispatch on the runtime type of `diarization_data["speakers"]`. -/
def buildSpeakerMap : JValue → DynRes (List (JValue × JValue))
  | .arr l => buildSpeakerMapGo l []
  | .str s => if s.isEmpty then .okRes [] else .fatalErr
  | .obj o => if o.isEmpty then .okRes [] else .fatalErr
  | _ => .fatalErr

/-- The `for segment in diarization_data["segments"]` loop building the
formatted lines.  Per segment: `segment["speaker_id"]` (`KeyError` →
fallback), `speaker_map.get(...)` (`TypeError` on an unhashable key →
500), `segment["text"]` (`KeyError` → fallback), then the
`f"\x7blabel\x7d: \x7btext\x7d"` line. -/
def renderSegmentsGo (map : List (JValue × JValue)) :
    List JValue → List (List Char) → DynRes (List (List Char))
  | [], acc => .okRes acc
  | g :: rest, acc =>
      match g with
      | .obj gf =>
          (match pyGetKey gf "speaker_id".toList with
           | none => .fallbackErr
           | some sid =>
             match sid with
             | .arr _ => .fatalErr
             | .obj _ => .fatalErr
             | _ =>
               match pyGetKey gf "text".toList with
               | none => .fallbackErr
               | some tv =>
                 let label := pyDictGet map sid (.str "Unknown Speaker".toList)
                 renderSegmentsGo map rest (acc ++ [pyStr label ++ ": ".toList ++ pyStr tv]))
      | _ => .fatalErr

/-- Dispatch on the runtime type of `diarization_data["segments"]`. -/
def renderSegments (map : List (JValue × JValue)) : JValue → DynRes (List (List Char))
  | .arr l => renderSegmentsGo map l []
  | .str s => if s.isEmpty then .okRes [] else .fatalErr
  | .obj o => if o.isEmpty then .okRes [] else .fatalErr
  | _ => .fatalErr

/-- Python `sep.join(xs)`. -/
def joinSep (sep : List Char) : List (List Char) → List Char
  | [] => []
  | [x] => x
  | x :: rest => x ++ sep ++ joinSep sep rest

/-- The structured-diarization block after a successful `json.loads`
(`main.py` lines 162–173): validate that both top-level keys exist
(`ValueError` → fallback; on a non-dict, Python's `in` means list
membership / substring test, and passing it leads to a `TypeError` at
the subscript → 500), build the speaker map, render the lines, and join
them into `transcript_diarized`. -/
def diarStructuredObj (fields : List (List Char × JValue)) : DynRes (List Char) :=
  if hasKey fields "speakers".toList && hasKey fields "segments".toList then
    match buildSpeakerMap (pyGetD fields "speakers".toList .null) with
    | .fallbackErr => .fallbackErr
    | .fatalErr => .fatalErr
    | .okRes map =>
      match renderSegments map (pyGetD fields "segments".toList .null) with
      | .fallbackErr => .fallbackErr
      | .fatalErr => .fatalErr
      | .okRes lines => .okRes (joinSep "\n\n".toList lines)
  else .fallbackErr

/-- Runtime-type dispatch of the validation step. -/
def diarStructured (dd : JValue) : DynRes (List Char) :=
  match dd with
  | .obj fields => diarStructuredObj fields
  | .arr l =>
      if (l.any (fun e => pyKeyEq e (.str "speakers".toList))) &&
         (l.any (fun e => pyKeyEq e (.str "segments".toList))) then .fatalErr
      else .fallbackErr
  | .str s =>
      if hasSub "speakers".toList s && hasSub "segments".toList s then .fatalErr
      else .fallbackErr
  | _ => .fatalErr

/-- The plain-text fallback branch (`main.py` lines 198–246): second
GPT call with the simpler prompt, persist only `transcript_diarized`,
return `\x7bdiarized: false, error: "json_parse_failed", fallback: true\x7d`.
A store failure (empty `data` or a raised error) surfaces as a 500. -/
def fallbackPath (env : DiarEnv) : DiarOutcome × DiarEffects :=
  match env.llm2 with
  | .error _ => (.http 500, { llmCalls := 2 })
  | .ok c2 =>
    let w : UpdatePayload := { transcript_diarized := some (.str (pyStrip c2)) }
    match env.update2 with
    | .exn => (.http 500, { llmCalls := 2, writes := [w] })
    | .noRows => (.http 500, { llmCalls := 2, writes := [w] })
    | .ok =>
        (.ok { diarized := false
               error := some "json_parse_failed".toList
               fallback := some true },
         { llmCalls := 2, writes := [w] })

/-- Persist of the structured-diarization result: exactly the two
diarization fields (`main.py` lines 176–179); empty `data` or a store
exception surfaces as a 500. -/
def diarStructuredPersist (env : DiarEnv) (dd : JValue) (td : List Char) :
    DiarOutcome × DiarEffects :=
  let w : UpdatePayload :=
    { diarization_json := some dd, transcript_diarized := some (.str td) }
  match env.update1 with
  | .exn => (.http 500, { llmCalls := 1, writes := [w] })
  | .noRows => (.http 500, { llmCalls := 1, writes := [w] })
  | .ok =>
      (.ok { diarized := true, cached := some false, diarization := some dd },
       { llmCalls := 1, writes := [w] })

/-- Dispatch on the outcome of the structured-diarization block. -/
def diarAfterStructured (env : DiarEnv) (dd : JValue) (r : DynRes (List Char)) :
    DiarOutcome × DiarEffects :=
  match r with
  | .fallbackErr => fallbackPath env
  | .fatalErr => (.http 500, { llmCalls := 1 })
  | .okRes td => diarStructuredPersist env dd td

/-- Dispatch on the outcome of `json.loads` on the first response. -/
def diarAfterParse (env : DiarEnv) (po : Option JValue) : DiarOutcome × DiarEffects :=
  match po with
  | none => fallbackPath env
  | some dd => diarAfterStructured env dd (diarStructured dd)

/-- The `POST /meetings/{meeting_id}/diarize` handler (`main.py` lines
57–255).  Checks, in source order: row exists (else 404); transcript
truthy and not whitespace-only (else 400; a truthy non-string
transcript raises `AttributeError` at `.strip()` → 500); cached
`diarization_json` (return it, no GPT call, no write); then the
structured attempt with parse/validation failure diverting to the
fallback. -/
def diarize_meeting (env : DiarEnv) : DiarOutcome × DiarEffects :=
  match env.meeting with
  | none => (.http 404, {})
  | some m =>
    if !pyTruthy m.transcript then (.http 400, {})
    else
      match m.transcript with
      | .str s =>
        if (pyStrip s).isEmpty then (.http 400, {})
        else if pyTruthy m.diarization_json then
          (.ok { diarized := true, cached := some true, diarization := some m.diarization_json }, {})
        else
          match env.llm1 with
          | .error _ => (.http 500, { llmCalls := 1 })
          | .ok content => diarAfterParse env (respParse content)
      | _ => (.http 500, {})

/-- Modelled from the spec: full schema validity of a diarization
object ("every `segments[i].speaker_id` resolves in `speakers`").  The
source contains no such check, so this predicate is written from the
spec's words to compare against what the code persists. -/
def diarizationFullyValid (j : JValue) : Bool :=
  match j with
  | .obj fields =>
      (match pyGetKey fields "speakers".toList, pyGetKey fields "segments".toList with
       | some (.arr ss), some (.arr gs) =>
           gs.all (fun g =>
             match g with
             | .obj gf =>
                 (match pyGetKey gf "speaker_id".toList with
                  | some sid =>
                      ss.any (fun sp =>
                        match sp with
                        | .obj sf =>
                            (match pyGetKey sf "id".toList with
                             | some idv => pyKeyEq idv sid
                             | none => false)
                        | _ => false)
                  | none => false)
             | _ => false)
       | _, _ => false)
  | _ => false

/-! ## Statement-level definitions -/

/-- The truncation footnote without its two leading newlines (the part
that survives `str.strip()` whatever precedes it). -/
def noteCore : List Char :=
  "*(Note: Transcript was truncated for analysis)*".toList

/-- A model response wrapped in a single leading/trailing fenced code
block: three backticks, an optional language tag on the opening-fence
line, the content, and a closing fence. -/
def wrapFence (tag t : List Char) : List Char :=
  btick :: btick :: btick :: (tag ++ '\n' :: t ++ '\n' :: btick :: btick :: btick :: [])

/-! Concrete inputs for the counterexamples and witnesses below. -/

/-- A run whose primary (ready) persist matches no row. -/
def envC1 : ProcEnv :=
  { transcribe := .ok "hi".toList
    analyze := .ok "\x7b\x7d".toList
    updateReady := .noRows }

/-- A run whose structuring response is the empty JSON object: valid
JSON, every required key missing. -/
def envC2 : ProcEnv :=
  { transcribe := .ok "hello".toList
    analyze := .ok "\x7b\x7d".toList }

/-- A 20001-character transcript together with a structuring response
that supplies a `clean_transcript`. -/
def rawLong : List Char := List.replicate 20001 'a'

/-- Structuring response carrying `clean_transcript = "X"`. -/
def respC3 : List Char := "\x7b\"clean_transcript\": \"X\"\x7d".toList

/-- Environment for the truncation counterexample. -/
def envC3 : ProcEnv := { transcribe := .ok rawLong, analyze := .ok respC3 }

/-- A run with an empty transcription result and a malformed
structuring response. -/
def envC7 : ProcEnv := { transcribe := .ok [], analyze := .ok "x".toList }

/-- A meeting with a diarization cache present but no transcript. -/
def mC4 : Meeting :=
  { diarization_json := .obj [("speakers".toList, .arr []), ("segments".toList, .arr [])] }

/-- Environment for the idempotence counterexample. -/
def envC4 : DiarEnv := { meeting := some mC4 }

/-- A diarization response whose single segment references a speaker id
that does not resolve in the (empty) speaker list. -/
def respC5 : List Char :=
  "\x7b\"speakers\": [], \"segments\": [\x7b\"speaker_id\": \"speaker_1\", \"text\": \"hi\"\x7d]\x7d".toList

/-- The decoded value of `respC5`. -/
def ddC5 : JValue :=
  .obj [("speakers".toList, .arr []),
        ("segments".toList,
         .arr [.obj [("speaker_id".toList, .str "speaker_1".toList),
                     ("text".toList, .str "hi".toList)]])]

/-- Environment for the validity counterexample. -/
def envC5 : DiarEnv :=
  { meeting := some { transcript := .str "hi".toList }, llm1 := .ok respC5 }

/-- A well-formed structuring response for the fence round-trip. -/
def respC6 : List Char := "\x7b\"a\": 1\x7d".toList

/-- A diarization call whose first response is unparseable, exercising
the plain-text fallback. -/
def envW9 : DiarEnv :=
  { meeting := some { transcript := .str "hi".toList }
    llm1 := .ok "not json".toList
    llm2 := .ok "Speaker 1: hi".toList }

/-- A run that reaches the notification step and whose push call
raises. -/
def envW8 : ProcEnv :=
  { transcribe := .ok "hi".toList
    analyze := .ok "bad".toList
    pushToken := some "tok".toList
    push := .error () }

/-- A meeting with both a non-blank transcript and a cached
diarization. -/
def mW4 : Meeting :=
  { transcript := .str "hi".toList
    diarization_json := .obj [("speakers".toList, .arr []), ("segments".toList, .arr [])] }

/-- Environment for the idempotence witness (cache hit). -/
def envW4 : DiarEnv := { meeting := some mW4 }

/-- A run whose audio fetch fails. -/
def envW1 : ProcEnv := { fetch := .error () }

/-- A run with a non-empty transcription and a malformed structuring
response. -/
def envW2 : ProcEnv := { transcribe := .ok "hi".toList, analyze := .ok "bad".toList }

/-! ## Helper lemmas -/

theorem trimRight_append (x t : List Char) (h : trimRight t ≠ []) :
    trimRight (x ++ t) = x ++ trimRight t := by
  induction x with
  | nil => simp
  | cons c x ih =>
      simp only [List.cons_append, trimRight, List.append_eq, ih]
      have hne : x ++ trimRight t ≠ [] := fun hx => h (List.append_eq_nil.mp hx).2
      simp [hne]

theorem trimRight_snoc_ws (y : List Char) (c : Char) (hc : isPySpace c = true) :
    trimRight (y ++ [c]) = trimRight y := by
  induction y with
  | nil => simp [trimRight, hc]
  | cons d y ih => simp only [List.cons_append, trimRight, List.append_eq, ih]

theorem dropWhile_append_of_nil {p : Char → Bool} {x : List Char} (y : List Char)
    (h : x.dropWhile p = []) : (x ++ y).dropWhile p = y.dropWhile p := by
  induction x with
  | nil => simp
  | cons c x ih =>
      rw [List.dropWhile_cons] at h
      by_cases hp : p c = true
      · simp only [List.cons_append, List.dropWhile_cons, hp, if_true]
        exact ih (by simpa [hp] using h)
      · simp [hp] at h
  
theorem dropWhile_append_of_ne {p : Char → Bool} {x : List Char} (y : List Char)
    (h : x.dropWhile p ≠ []) : (x ++ y).dropWhile p = x.dropWhile p ++ y := by
  induction x with
  | nil => simp at h
  | cons c x ih =>
      rw [List.dropWhile_cons] at h
      by_cases hp : p c = true
      · simp only [List.cons_append, List.dropWhile_cons, hp, if_true]
        exact ih (by simpa [hp] using h)
      · simp [List.dropWhile_cons, hp] at h ⊢

theorem hasSub_append_left (pat x y : List Char) (h : hasSub pat y = true) :
    hasSub pat (x ++ y) = true := by
  induction x with
  | nil => simpa using h
  | cons c x ih => simp [hasSub, ih]

theorem startsWithTriple_cons_ne {c : Char} (hc : ¬ c = btick) (l : List Char) :
    startsWithTriple (c :: l) = false := by
  cases l with
  | nil => rfl
  | cons b l2 =>
      cases l2 with
      | nil => rfl
      | cons e l3 => simp [startsWithTriple, hc]

theorem hasTriple_cons_ne {c : Char} (hc : ¬ c = btick) (l : List Char) :
    hasTriple (c :: l) = hasTriple l := by
  simp [hasTriple, startsWithTriple_cons_ne hc]

theorem startsWithTriple_append {x : List Char} (y : List Char)
    (h : startsWithTriple x = true) : startsWithTriple (x ++ y) = true := by
  match x with
  | [] => simp [startsWithTriple] at h
  | [a] => simp [startsWithTriple] at h
  | [a, b] => simp [startsWithTriple] at h
  | a :: b :: c :: rest => simpa [startsWithTriple] using h

theorem hasTriple_of_startsWithTriple {l : List Char} (h : startsWithTriple l = true) :
    hasTriple l = true := by
  cases l with
  | nil => simp [startsWithTriple] at h
  | cons c rest => simp [hasTriple, h]

theorem hasTriple_append_left {x : List Char} (y : List Char)
    (h : hasTriple x = true) : hasTriple (x ++ y) = true := by
  induction x with
  | nil => simp [hasTriple] at h
  | cons c x ih =>
      simp only [hasTriple, Bool.or_eq_true] at h
      rcases h with h | h
      · rw [List.cons_append]
        exact hasTriple_of_startsWithTriple
          (startsWithTriple_append y h)
      · simp [hasTriple, ih h]

theorem hasTriple_append_right {y : List Char} (x : List Char)
    (h : hasTriple y = true) : hasTriple (x ++ y) = true := by
  induction x with
  | nil => simpa using h
  | cons c x ih => simp [hasTriple, ih]

theorem hasTriple_of_dropWhile {p : Char → Bool} {l : List Char}
    (h : hasTriple (l.dropWhile p) = true) : hasTriple l = true := by
  induction l with
  | nil => exact h
  | cons c l ih =>
      rw [List.dropWhile_cons] at h
      by_cases hp : p c = true
      · simp only [hp, if_true] at h
        simp [hasTriple, ih h]
      · simp only [hp] at h
        simpa [hp] using h

theorem trimRight_isPrefix (l : List Char) : ∃ rest, l = trimRight l ++ rest := by
  induction l with
  | nil => exact ⟨[], rfl⟩
  | cons c l ih =>
      rcases ih with ⟨r, hr⟩
      simp only [trimRight]
      by_cases h : (trimRight l).isEmpty && isPySpace c
      · exact ⟨c :: l, by simp [h]⟩
      · refine ⟨r, ?_⟩
        have hb : ((trimRight l).isEmpty && isPySpace c) = false := by simpa using h
        simp only [hb, Bool.false_eq_true, if_false, List.cons_append]
        exact congrArg (c :: ·) hr

theorem hasTriple_of_trimRight {l : List Char} (h : hasTriple (trimRight l) = true) :
    hasTriple l = true := by
  rcases trimRight_isPrefix l with ⟨r, hr⟩
  rw [hr]
  exact hasTriple_append_left r h

theorem hasTriple_of_pyStrip {l : List Char} (h : hasTriple (pyStrip l) = true) :
    hasTriple l = true :=
  hasTriple_of_dropWhile (hasTriple_of_trimRight h)

theorem takeBeforeTriple_closed (t : List Char) (h : hasTriple t = false) :
    takeBeforeTriple (t ++ '\n' :: btick :: btick :: btick :: []) = t ++ ['\n'] := by
  induction t with
  | nil => decide
  | cons c t ih =>
      have h0 : startsWithTriple (c :: t) = false := by
        simp only [hasTriple, Bool.or_eq_false_iff] at h; exact h.1
      have h2 : hasTriple t = false := by
        simp only [hasTriple, Bool.or_eq_false_iff] at h; exact h.2
      have hnl : ('\n' == btick) = false := by decide
      have hs : startsWithTriple (c :: (t ++ '\n' :: btick :: btick :: btick :: [])) = false := by
        cases t with
        | nil => simp [startsWithTriple, hnl]
        | cons d t2 =>
            cases t2 with
            | nil => simp [startsWithTriple, hnl]
            | cons e t3 =>
                simp only [startsWithTriple] at h0 ⊢
                simpa using h0
      rw [List.cons_append]
      simp only [takeBeforeTriple, hs, Bool.false_eq_true, if_false]
      rw [ih h2]
      rfl

theorem pyStrip_pad (t : List Char) :
    pyStrip ('\n' :: t ++ ['\n']) = pyStrip t := by
  unfold pyStrip trimLeft
  rw [List.cons_append, List.dropWhile_cons]
  have hnl : isPySpace '\n' = true := by decide
  simp only [hnl, if_true]
  by_cases h : t.dropWhile isPySpace = []
  · rw [dropWhile_append_of_nil _ h, h]
    decide
  · rw [dropWhile_append_of_ne _ h]
    exact trimRight_snoc_ws _ '\n' hnl

set_option maxRecDepth 40000 in
theorem hasSub_note_strip (x : List Char) :
    hasSub noteCore (pyStrip (x ++ truncNote)) = true := by
  unfold pyStrip trimLeft
  by_cases h : x.dropWhile isPySpace = []
  · rw [dropWhile_append_of_nil _ h]
    decide
  · rw [dropWhile_append_of_ne _ h]
    have h2 : trimRight truncNote = truncNote := by decide
    rw [trimRight_append _ _ (by rw [h2]; decide), h2]
    exact hasSub_append_left _ _ _ (by decide)

theorem truncate20k_ne_nil {l : List Char} (h : l ≠ []) : truncate20k l ≠ [] := by
  unfold truncate20k
  split
  · intro hx
    rcases List.take_eq_nil_iff.mp hx with h1 | h1
    · exact absurd h1 (by norm_num)
    · exact h h1
  · exact h

theorem buildFormattedSummary_isSome (sv kp ai : JValue) (t t' : Bool) :
    (buildFormattedSummary sv kp ai t).isSome = (buildFormattedSummary sv kp ai t').isSome := by
  cases sv with
  | str s =>
      unfold buildFormattedSummary
      cases h1 : appendBullets s ("\n\n**Key Points:**\n".toList) kp with
      | none => simp only [h1]
      | some s1 =>
          simp only [h1]
          cases h2 : appendBullets s1 ("\n**Action Items:**\n".toList) ai with
          | none => simp only [h2]
          | some s2 => simp only [h2, Option.isSome_some]
  | null => rfl
  | bool b => rfl
  | num n => rfl
  | arr l => rfl
  | obj l => rfl

theorem analysisOutcome_dynErr_iff (p : Option JValue) (r r' : List Char) (t t' : Bool) :
    (analysisOutcome p r t = .dynErr) ↔ (analysisOutcome p r' t' = .dynErr) := by
  cases p with
  | none => simp [analysisOutcome]
  | some v =>
      cases v with
      | obj fields =>
          show (analysisObjOutcome fields r t = .dynErr) ↔ (analysisObjOutcome fields r' t' = .dynErr)
          unfold analysisObjOutcome
          cases hs : pySlice30 (pyGetD fields ("title".toList) (.str [])) with
          | none => simp only [hs]
          | some ti =>
              simp only [hs]
              have hiso := buildFormattedSummary_isSome
                (pyGetD fields ("summary".toList) (.str []))
                (pyGetD fields ("key_points".toList) (.arr []))
                (pyGetD fields ("action_items".toList) (.arr [])) t t'
              cases h1 : buildFormattedSummary (pyGetD fields ("summary".toList) (.str []))
                  (pyGetD fields ("key_points".toList) (.arr []))
                  (pyGetD fields ("action_items".toList) (.arr [])) t with
              | none =>
                  cases h2 : buildFormattedSummary (pyGetD fields ("summary".toList) (.str []))
                      (pyGetD fields ("key_points".toList) (.arr []))
                      (pyGetD fields ("action_items".toList) (.arr [])) t' with
                  | none => simp only [h1, h2]
                  | some s2 => rw [h1, h2] at hiso; simp at hiso
              | some s1 =>
                  cases h2 : buildFormattedSummary (pyGetD fields ("summary".toList) (.str []))
                      (pyGetD fields ("key_points".toList) (.arr []))
                      (pyGetD fields ("action_items".toList) (.arr [])) t' with
                  | none => rw [h1, h2] at hiso; simp at hiso
                  | some s2 =>
                      simp only [h1, h2]
                      constructor <;> intro h <;> exact absurd h (by simp)
      | null => simp [analysisOutcome]
      | bool b => simp [analysisOutcome]
      | num n => simp [analysisOutcome]
      | str s => simp [analysisOutcome]
      | arr l => simp [analysisOutcome]

theorem takeBeforeTriple_cons_ne {c : Char} (hc : ¬ c = btick) (l : List Char) :
    takeBeforeTriple (c :: l) = c :: takeBeforeTriple l := by
  simp [takeBeforeTriple, startsWithTriple_cons_ne hc]

theorem pyStrip_wrap (tag t : List Char) :
    pyStrip (wrapFence tag t) = wrapFence tag t := by
  unfold pyStrip trimLeft wrapFence
  have hb : isPySpace btick = false := by decide
  rw [List.dropWhile_cons]
  simp only [hb, Bool.false_eq_true, if_false]
  have hX : btick :: btick :: btick ::
        (tag ++ '\n' :: t ++ '\n' :: btick :: btick :: btick :: []) =
      (btick :: btick :: btick :: (tag ++ '\n' :: t ++ ['\n'])) ++
        (btick :: btick :: btick :: []) := by
    simp
  rw [hX, trimRight_append _ _ (by decide),
    show trimRight (btick :: btick :: btick :: []) = btick :: btick :: btick :: [] from by decide]

theorem stripFences_wrap (tag t : List Char)
    (htag : tag = [] ∨ tag = "json".toList) (ht : hasTriple t = false) :
    stripFences (wrapFence tag t) = pyStrip t := by
  have hnt : hasTriple ('\n' :: t) = false := by
    rw [hasTriple_cons_ne (by decide)]; exact ht
  have hclosed : takeBeforeTriple ('\n' :: t ++ '\n' :: btick :: btick :: btick :: []) =
      '\n' :: t ++ ['\n'] := by
    have := takeBeforeTriple_closed ('\n' :: t) hnt
    simpa using this
  rcases htag with h | h
  · subst h
    unfold wrapFence stripFences
    simp only [List.nil_append]
    rw [if_pos (by simp [startsWithTriple])]
    simp only [List.drop_succ_cons, List.drop_zero]
    rw [hclosed]
    rw [if_neg ?_]
    · exact pyStrip_pad t
    · intro hj
      have : '\n' = 'j' := by
        have h4 : List.take 4 ('\n' :: (t ++ ['\n'])) = '\n' :: List.take 3 (t ++ ['\n']) := rfl
        rw [show ('\n' :: t ++ ['\n']) = '\n' :: (t ++ ['\n']) from rfl, h4] at hj
        exact (List.cons.injEq _ _ _ _ ▸ hj).1
      exact absurd this (by decide)
  · subst h
    unfold wrapFence stripFences
    rw [if_pos (by simp [startsWithTriple])]
    simp only [List.drop_succ_cons, List.drop_zero]
    have hsteps : takeBeforeTriple ("json".toList ++ '\n' :: t ++ '\n' :: btick :: btick :: btick :: []) =
        'j' :: 's' :: 'o' :: 'n' :: ('\n' :: t ++ ['\n']) := by
      show takeBeforeTriple ('j' :: 's' :: 'o' :: 'n' :: ('\n' :: t ++ '\n' :: btick :: btick :: btick :: [])) = _
      rw [takeBeforeTriple_cons_ne (by decide), takeBeforeTriple_cons_ne (by decide),
        takeBeforeTriple_cons_ne (by decide), takeBeforeTriple_cons_ne (by decide), hclosed]
    rw [hsteps]
    rw [if_pos (by rfl)]
    show pyStrip ('\n' :: t ++ ['\n']) = pyStrip t
    exact pyStrip_pad t

theorem stripFences_of_noTriple {t : List Char} (ht : hasTriple t = false) :
    stripFences (pyStrip t) = pyStrip t := by
  unfold stripFences
  rw [if_neg ?_]
  intro hsw
  have := hasTriple_of_pyStrip (hasTriple_of_startsWithTriple hsw)
  rw [ht] at this
  exact absurd this (by simp)

theorem respParse_wrap (tag t : List Char)
    (htag : tag = [] ∨ tag = "json".toList) (ht : hasTriple t = false) :
    respParse (wrapFence tag t) = respParse t := by
  unfold respParse
  rw [pyStrip_wrap, stripFences_wrap tag t htag ht, stripFences_of_noTriple ht]

/-! ## Claim C6 -/

/-- C6, counterexample.  The claim says a response wrapped in a fenced
code block with any language tag parses identically to the unwrapped
response.  False: with the tag `text`, the parser strips the fence but
leaves the tag in place (`main.py` line 156 splits on the fence and
line 157 special-cases only the `json` tag), so the wrapped form fails
to decode while the unwrapped form decodes. -/
theorem C6_counterexample :
    respParse respC6 = some (.obj [("a".toList, .num 1)]) ∧
    respParse (wrapFence "text".toList respC6) = none ∧
    respParse (wrapFence "text".toList respC6) ≠ respParse respC6 := by
  refine ⟨rfl, rfl, ?_⟩
  intro h
  rw [show respParse respC6 = some (.obj [("a".toList, .num 1)]) from rfl,
    show respParse (wrapFence "text".toList respC6) = none from rfl] at h
  exact Option.noConfusion h

/-- C6, amended.  Round-trip of fence stripping: wrapping a model
response in a single leading/trailing fenced code block yields a text
that the response parser parses to the same result as the unwrapped
text, provided the language tag is empty or exactly `json` and the
content contains no three-backtick sequence. -/
theorem C6_corrected (tag t : List Char)
    (htag : tag = [] ∨ tag = "json".toList) (ht : hasTriple t = false) :
    respParse (wrapFence tag t) = respParse t :=
  respParse_wrap tag t htag ht

/-- C6, witness for the amended theorem at a concrete input. -/
theorem C6_witness :
    ("json".toList = [] ∨ "json".toList = "json".toList) ∧
    hasTriple respC6 = false ∧
    respParse (wrapFence "json".toList respC6) = respParse respC6 :=
  ⟨Or.inr rfl, by decide, C6_corrected "json".toList respC6 (Or.inr rfl) (by decide)⟩

/-! ## Claim C10 -/

/-- C10, confirmed.  For every diarize call on an existing meeting
whose stored transcript is absent (`NULL`), empty, or whitespace-only,
the call fails with a 400 `InvalidState` error before the cache is
consulted — even when `diarization_json` is present (the theorem puts
no constraint on it) — issuing no structuring-service call and no
store write. -/
theorem C10_confirmed (env : DiarEnv) (m : Meeting) (hm : env.meeting = some m)
    (h : m.transcript = .null ∨ ∃ s, m.transcript = .str s ∧ pyStrip s = []) :
    diarize_meeting env = (.http 400, { llmCalls := 0, writes := [] }) := by
  unfold diarize_meeting
  simp only [hm]
  rcases h with h | ⟨s, hs, hstrip⟩
  · rw [h]; rfl
  · rw [hs]
    cases s with
    | nil => rfl
    | cons c s' =>
        have hemp : (pyStrip (c :: s')).isEmpty = true := by rw [hstrip]; rfl
        simp [pyTruthy, hemp]

/-- C10, witness: a meeting with a diarization cache present but a
`NULL` transcript is rejected with 400 and no effects. -/
theorem C10_witness :
    envC4.meeting = some mC4 ∧
    diarize_meeting envC4 = (.http 400, { llmCalls := 0, writes := [] }) :=
  ⟨rfl, C10_confirmed envC4 mC4 rfl (Or.inl rfl)⟩

theorem process_shape (env : ProcEnv) :
    (env.fetch = .error () ∧
      process_meeting env = (.failed, { writes := [failWrite] })) ∨
    (env.fetch = .ok () ∧ env.transcribe = .error () ∧
      process_meeting env = (.failed, { writes := [failWrite] })) ∨
    (∃ raw0, env.fetch = .ok () ∧ env.transcribe = .ok raw0 ∧ env.analyze = .error () ∧
      process_meeting env = (.failed,
        { structInput := some (truncate20k raw0),
          truncated := decide (raw0.length > 20000), writes := [failWrite] })) ∨
    (∃ raw0 content, env.fetch = .ok () ∧ env.transcribe = .ok raw0 ∧ env.analyze = .ok content ∧
      analysisOutcome (respParse content) (truncate20k raw0) (decide (raw0.length > 20000)) = .dynErr ∧
      process_meeting env = (.failed,
        { structInput := some (truncate20k raw0),
          truncated := decide (raw0.length > 20000), writes := [failWrite] })) ∨
    (∃ raw0 content ft fs ti, env.fetch = .ok () ∧ env.transcribe = .ok raw0 ∧
      env.analyze = .ok content ∧
      analysisOutcome (respParse content) (truncate20k raw0) (decide (raw0.length > 20000)) =
        .out ft fs ti ∧
      ((env.updateReady = .exn ∧ process_meeting env = (.failed,
          { structInput := some (truncate20k raw0), truncated := decide (raw0.length > 20000),
            writes := [readyWriteOf ft fs ti, failWrite] })) ∨
       (env.updateReady = .noRows ∧ process_meeting env = (.httpExn 500,
          { structInput := some (truncate20k raw0), truncated := decide (raw0.length > 20000),
            writes := [readyWriteOf ft fs ti] })) ∨
       (env.updateReady = .ok ∧ process_meeting env = (.ok,
          { structInput := some (truncate20k raw0), truncated := decide (raw0.length > 20000),
            writes := [readyWriteOf ft fs ti], pushAttempted := env.pushToken.isSome })))) := by
  rcases env with ⟨pt, f, tr, an, ur, uf, pu⟩
  cases f with
  | error e => exact Or.inl ⟨rfl, rfl⟩
  | ok u =>
    cases u
    cases tr with
    | error e => exact Or.inr (Or.inl ⟨rfl, rfl, rfl⟩)
    | ok raw0 =>
      cases an with
      | error e =>
          exact Or.inr (Or.inr (Or.inl ⟨raw0, rfl, rfl, rfl, rfl⟩))
      | ok content =>
          cases ho : analysisOutcome (respParse content) (truncate20k raw0)
              (decide (raw0.length > 20000)) with
          | dynErr =>
              refine Or.inr (Or.inr (Or.inr (Or.inl ⟨raw0, content, rfl, rfl, rfl, ho, ?_⟩)))
              show afterAnalysis _ _ (analysisOutcome (respParse content) (truncate20k raw0)
                (decide (raw0.length > 20000))) = _
              rw [ho]
              rfl
          | out ft fs ti =>
              refine Or.inr (Or.inr (Or.inr (Or.inr
                ⟨raw0, content, ft, fs, ti, rfl, rfl, rfl, ho, ?_⟩)))
              cases ur with
              | exn =>
                  refine Or.inl ⟨rfl, ?_⟩
                  show afterAnalysis _ _ (analysisOutcome (respParse content) (truncate20k raw0)
                    (decide (raw0.length > 20000))) = _
                  rw [ho]
                  rfl
              | noRows =>
                  refine Or.inr (Or.inl ⟨rfl, ?_⟩)
                  show afterAnalysis _ _ (analysisOutcome (respParse content) (truncate20k raw0)
                    (decide (raw0.length > 20000))) = _
                  rw [ho]
                  rfl
              | ok =>
                  refine Or.inr (Or.inr ⟨rfl, ?_⟩)
                  show afterAnalysis _ _ (analysisOutcome (respParse content) (truncate20k raw0)
                    (decide (raw0.length > 20000))) = _
                  rw [ho]
                  cases pt with
                  | none => rfl
                  | some tok => cases pu <;> rfl

theorem process_irrel (pt : Option (List Char)) (f : Except Unit Unit)
    (tr an : Except Unit (List Char)) (ur uf uf' : UpdateBehavior)
    (pu pu' : Except Unit Unit) :
    process_meeting ⟨pt, f, tr, an, ur, uf, pu⟩ = process_meeting ⟨pt, f, tr, an, ur, uf', pu'⟩ := by
  cases f with
  | error e => rfl
  | ok u =>
    cases tr with
    | error e => rfl
    | ok raw0 =>
      cases an with
      | error e => rfl
      | ok content =>
        show afterAnalysis _ _ (analysisOutcome (respParse content) (truncate20k raw0)
            (decide (raw0.length > 20000))) =
          afterAnalysis _ _ (analysisOutcome (respParse content) (truncate20k raw0)
            (decide (raw0.length > 20000)))
        cases analysisOutcome (respParse content) (truncate20k raw0)
            (decide (raw0.length > 20000)) with
        | dynErr => rfl
        | out ft fs ti =>
          cases ur with
          | exn => rfl
          | noRows => rfl
          | ok =>
            cases pt with
            | none => rfl
            | some tok => cases pu <;> cases pu' <;> rfl

/-! ## Claim C8 -/

/-- C8, confirmed.  Any error raised by the push-notification call is
swallowed and never changes the result: the whole endpoint is
insensitive to the push outcome (and to the behaviour of the
failure-persist, which mirrors the inner `try/except pass`), and every
run that reaches the notification step returns the structured
`\x7bok: true, status: ready\x7d` with exactly the already-issued ready
persist — the record is unaffected. -/
theorem C8_confirmed (env : ProcEnv) :
    (∀ p q : Except Unit Unit,
      process_meeting { env with push := p } = process_meeting { env with push := q }) ∧
    ((process_meeting env).2.pushAttempted = true →
      (process_meeting env).1 = .ok ∧
      (process_meeting env).2.writes.map (fun w => w.status) =
        [some (.str "ready".toList)]) := by
  constructor
  · intro p q
    rcases env with ⟨pt, f, tr, an, ur, uf, pu⟩
    exact process_irrel pt f tr an ur uf uf p q
  · intro hp
    rcases process_shape env with ⟨_, hE⟩ | ⟨_, _, hE⟩ | ⟨raw0, _, _, _, hE⟩ |
      ⟨raw0, content, _, _, _, _, hE⟩ |
      ⟨raw0, content, ft, fs, ti, _, _, _, _, ⟨_, hE⟩ | ⟨_, hE⟩ | ⟨_, hE⟩⟩
    · simp [hE] at hp
    · simp [hE] at hp
    · simp [hE] at hp
    · simp [hE] at hp
    · simp [hE] at hp
    · simp [hE] at hp
    · rw [hE]
      exact ⟨rfl, rfl⟩

/-- C8, witness: a run whose push call raises a network error still
returns `ok` with the single ready persist. -/
theorem C8_witness :
    process_meeting { envW8 with push := .error () } =
      process_meeting { envW8 with push := .ok () } ∧
    ((process_meeting envW8).1 = .ok ∧
      (process_meeting envW8).2.writes.map (fun w => w.status) =
        [some (.str "ready".toList)]) :=
  ⟨(C8_confirmed envW8).1 (.error ()) (.ok ()), (C8_confirmed envW8).2 rfl⟩

/-! ## Claim C1 -/

/-- C1, counterexample.  The claim says every fatal error in steps 1–7,
persistence failure included, leads to an attempted
`processing_failed` persist and a structured `\x7bok: false\x7d` result.
False for the persistence step: when the ready persist matches no row,
`main.py` line 414 raises `HTTPException(500)`, which line 466–467
re-raises — a transport-level failure, with no `processing_failed`
write attempted. -/
theorem C1_counterexample :
    envC1.updateReady = .noRows ∧
    (process_meeting envC1).1 = .httpExn 500 ∧
    (process_meeting envC1).1 ≠ .failed ∧
    (process_meeting envC1).2.writes.map (fun w => w.status) =
      [some (.str "ready".toList)] := by
  refine ⟨rfl, rfl, ?_, rfl⟩
  intro h
  rw [show (process_meeting envC1).1 = .httpExn 500 from rfl] at h
  exact ProcResult.noConfusion h

/-- C1, amended.  For a fatal error in fetch, transcription or the
structuring call, the handler issues exactly the
`\x7bstatus: processing_failed, transcript: null, summary: retry
message\x7d` persist and returns the structured failure result, and
its result does not depend on the outcome of that secondary persist
(nor of the push call).  A zero-row ready persist instead raises
`HTTPException(500)` with no `processing_failed` write. -/
theorem C1_corrected (env : ProcEnv) :
    (env.fetch = .error () → process_meeting env = (.failed, { writes := [failWrite] })) ∧
    (env.fetch = .ok () → env.transcribe = .error () →
      process_meeting env = (.failed, { writes := [failWrite] })) ∧
    (∀ raw0, env.fetch = .ok () → env.transcribe = .ok raw0 → env.analyze = .error () →
      process_meeting env = (.failed,
        { structInput := some (truncate20k raw0),
          truncated := decide (raw0.length > 20000), writes := [failWrite] })) ∧
    (∀ raw0 content ft fs ti, env.fetch = .ok () → env.transcribe = .ok raw0 →
      env.analyze = .ok content →
      analysisOutcome (respParse content) (truncate20k raw0)
        (decide (raw0.length > 20000)) = .out ft fs ti →
      env.updateReady = .noRows →
      process_meeting env = (.httpExn 500,
        { structInput := some (truncate20k raw0), truncated := decide (raw0.length > 20000),
          writes := [readyWriteOf ft fs ti] })) ∧
    (∀ uf uf' pu pu', process_meeting { env with updateFailed := uf, push := pu } =
      process_meeting { env with updateFailed := uf', push := pu' }) := by
  refine ⟨?_, ?_, ?_, ?_, ?_⟩
  · intro hf
    rcases process_shape env with ⟨_, hE⟩ | ⟨h2, _, _⟩ | ⟨r, h2, _, _, _⟩ |
      ⟨r, c, h2, _, _, _, _⟩ | ⟨r, c, ft', fs', ti', h2, _, _, _, _⟩
    · exact hE
    all_goals (rw [hf] at h2; exact Except.noConfusion h2)
  · intro hf htr
    rcases process_shape env with ⟨h2, _⟩ | ⟨_, _, hE⟩ | ⟨r, _, h2, _, _⟩ |
      ⟨r, c, _, h2, _, _, _⟩ | ⟨r, c, ft', fs', ti', _, h2, _, _, _⟩
    · rw [hf] at h2; exact Except.noConfusion h2
    · exact hE
    all_goals (rw [htr] at h2; exact Except.noConfusion h2)
  · intro raw0 hf htr han
    rcases process_shape env with ⟨h2, _⟩ | ⟨_, h2, _⟩ | ⟨r, _, h2, _, hE⟩ |
      ⟨r, c, _, _, h2, _, _⟩ | ⟨r, c, ft', fs', ti', _, _, h2, _, _⟩
    · rw [hf] at h2; exact Except.noConfusion h2
    · rw [htr] at h2; exact Except.noConfusion h2
    · obtain rfl : raw0 = r := by rw [htr] at h2; exact Except.ok.inj h2
      exact hE
    · rw [han] at h2; exact Except.noConfusion h2
    · rw [han] at h2; exact Except.noConfusion h2
  · intro raw0 content ft fs ti hf htr han ho hur
    rcases process_shape env with ⟨h2, _⟩ | ⟨_, h2, _⟩ | ⟨r, _, _, h2, _⟩ |
      ⟨r, c, _, h2, h3, h4, _⟩ | ⟨r, c, ft', fs', ti', _, h2, h3, h4, hcase⟩
    · rw [hf] at h2; exact Except.noConfusion h2
    · rw [htr] at h2; exact Except.noConfusion h2
    · rw [han] at h2; exact Except.noConfusion h2
    · obtain rfl : raw0 = r := by rw [htr] at h2; exact Except.ok.inj h2
      obtain rfl : content = c := by rw [han] at h3; exact Except.ok.inj h3
      rw [ho] at h4; exact AnalysisOut.noConfusion h4
    · obtain rfl : raw0 = r := by rw [htr] at h2; exact Except.ok.inj h2
      obtain rfl : content = c := by rw [han] at h3; exact Except.ok.inj h3
      rw [ho] at h4
      injection h4 with e1 e2 e3
      subst e1; subst e2; subst e3
      rcases hcase with ⟨hu, _⟩ | ⟨_, hE⟩ | ⟨hu, _⟩
      · rw [hur] at hu; exact UpdateBehavior.noConfusion hu
      · exact hE
      · rw [hur] at hu; exact UpdateBehavior.noConfusion hu
  · intro uf uf' pu pu'
    rcases env with ⟨pt, f, tr, an, ur, ufx, pux⟩
    exact process_irrel pt f tr an ur uf uf' pu pu'

/-- C1, witness for the amended theorem: a failed fetch yields the
structured failure and the single `processing_failed` persist. -/
theorem C1_witness :
    envW1.fetch = .error () ∧
    process_meeting envW1 = (.failed, { writes := [failWrite] }) :=
  ⟨rfl, (C1_corrected envW1).1 rfl⟩

theorem pyGetD_of_not_hasKey {fields : List (List Char × JValue)} {k : List Char}
    (h : hasKey fields k = false) (d : JValue) : pyGetD fields k d = d := by
  unfold pyGetD
  unfold hasKey at h
  cases hk : pyGetKey fields k with
  | none => rfl
  | some v => rw [hk] at h; exact absurd h (by simp)

theorem analysisOutcome_noKeys (fields : List (List Char × JValue)) (raw : List Char) (tr : Bool)
    (h1 : hasKey fields "title".toList = false)
    (h2 : hasKey fields "clean_transcript".toList = false)
    (h3 : hasKey fields "summary".toList = false)
    (h4 : hasKey fields "key_points".toList = false)
    (h5 : hasKey fields "action_items".toList = false) :
    analysisOutcome (some (.obj fields)) raw tr =
      .out (.str raw) (pyStrip (if tr = true then truncNote else [])) (.str []) := by
  show analysisObjOutcome fields raw tr = _
  unfold analysisObjOutcome
  rw [pyGetD_of_not_hasKey h1, pyGetD_of_not_hasKey h2, pyGetD_of_not_hasKey h3,
    pyGetD_of_not_hasKey h4, pyGetD_of_not_hasKey h5]
  rfl

theorem writes_head_of_out (env : ProcEnv) (raw0 content : List Char)
    (ft : JValue) (fs : List Char) (ti : JValue)
    (hf : env.fetch = .ok ()) (htr : env.transcribe = .ok raw0) (han : env.analyze = .ok content)
    (ho : analysisOutcome (respParse content) (truncate20k raw0)
      (decide (raw0.length > 20000)) = .out ft fs ti) :
    (process_meeting env).2.writes.head? = some (readyWriteOf ft fs ti) ∧
    (process_meeting env).2.structInput = some (truncate20k raw0) ∧
    (process_meeting env).2.truncated = decide (raw0.length > 20000) := by
  rcases process_shape env with ⟨h2, _⟩ | ⟨_, h2, _⟩ | ⟨r, _, _, h2, _⟩ |
    ⟨r, c, _, h2, h3, h4, _⟩ | ⟨r, c, ft', fs', ti', _, h2, h3, h4, hcase⟩
  · rw [hf] at h2; exact Except.noConfusion h2
  · rw [htr] at h2; exact Except.noConfusion h2
  · rw [han] at h2; exact Except.noConfusion h2
  · obtain rfl : raw0 = r := by rw [htr] at h2; exact Except.ok.inj h2
    obtain rfl : content = c := by rw [han] at h3; exact Except.ok.inj h3
    rw [ho] at h4; exact AnalysisOut.noConfusion h4
  · obtain rfl : raw0 = r := by rw [htr] at h2; exact Except.ok.inj h2
    obtain rfl : content = c := by rw [han] at h3; exact Except.ok.inj h3
    rw [ho] at h4
    injection h4 with e1 e2 e3
    subst e1; subst e2; subst e3
    rcases hcase with ⟨_, hE⟩ | ⟨_, hE⟩ | ⟨_, hE⟩ <;> rw [hE] <;> exact ⟨rfl, rfl, rfl⟩

/-! ## Claim C2 -/

/-- C2, counterexample.  The claim says a structuring response with
missing required keys yields the fixed degraded-success summary.
False: `\x7b\x7d` is valid JSON with every required key missing, yet the
handler persists `status = ready`, `transcript = raw` and an EMPTY
summary (each field falls back individually through `.get` defaults,
`main.py` lines 366–370) — not the fixed degraded message. -/
theorem C2_counterexample :
    respParse "\x7b\x7d".toList = some (.obj []) ∧
    (process_meeting envC2).2.writes.map (fun w => (w.status, w.transcript, w.summary)) =
      [(some (.str "ready".toList), some (.str "hello".toList), some (.str []))] ∧
    ([] : List Char) ≠ degradedSummary := by
  refine ⟨rfl, rfl, ?_⟩
  intro h
  exact absurd (congrArg List.length h) (by decide)

/-- C2, amended.  When the structuring response fails JSON decoding,
the ready persist carries `transcript = raw (truncated) transcript` and
the fixed degraded-success summary plus the truncation footnote when
applicable, with `status = ready` and a `None` title.  A response that
decodes to an object with the required keys missing is NOT treated as
a parse failure: each field defaults individually (transcript defaults
to the raw transcript, the summary is built from an empty default and
may be empty). -/
theorem C2_corrected (env : ProcEnv) :
    (∀ raw0 content, env.fetch = .ok () → env.transcribe = .ok raw0 →
      env.analyze = .ok content → respParse content = none →
      (process_meeting env).2.writes.head? = some (readyWriteOf (.str (truncate20k raw0))
        (degradedSummary ++ if decide (raw0.length > 20000) = true then truncNote else [])
        .null)) ∧
    (∀ raw0 content fields, env.fetch = .ok () → env.transcribe = .ok raw0 →
      env.analyze = .ok content → respParse content = some (.obj fields) →
      hasKey fields "title".toList = false →
      hasKey fields "clean_transcript".toList = false →
      hasKey fields "summary".toList = false →
      hasKey fields "key_points".toList = false →
      hasKey fields "action_items".toList = false →
      (process_meeting env).2.writes.head? = some (readyWriteOf (.str (truncate20k raw0))
        (pyStrip (if decide (raw0.length > 20000) = true then truncNote else []))
        (.str []))) := by
  constructor
  · intro raw0 content hf htr han hparse
    have hcomp : analysisOutcome (respParse content) (truncate20k raw0)
        (decide (raw0.length > 20000)) = .out (.str (truncate20k raw0))
        (degradedSummary ++ if decide (raw0.length > 20000) = true then truncNote else [])
        .null := by
      rw [hparse]
      rfl
    exact (writes_head_of_out env raw0 content _ _ _ hf htr han hcomp).1
  · intro raw0 content fields hf htr han hparse h1 h2 h3 h4 h5
    have hcomp : analysisOutcome (respParse content) (truncate20k raw0)
        (decide (raw0.length > 20000)) = .out (.str (truncate20k raw0))
        (pyStrip (if decide (raw0.length > 20000) = true then truncNote else []))
        (.str []) := by
      rw [hparse]
      exact analysisOutcome_noKeys fields _ _ h1 h2 h3 h4 h5
    exact (writes_head_of_out env raw0 content _ _ _ hf htr han hcomp).1

/-- C2, witness for the amended theorem: a malformed response on a
short transcript persists the raw transcript with the fixed degraded
summary. -/
theorem C2_witness :
    respParse "bad".toList = none ∧
    (process_meeting envW2).2.writes.head? =
      some (readyWriteOf (.str "hi".toList) degradedSummary .null) := by
  refine ⟨rfl, ?_⟩
  have h := (C2_corrected envW2).1 "hi".toList "bad".toList rfl rfl rfl rfl
  simpa using h

theorem failWrite_status_ne_ready : failWrite.status ≠ some (.str "ready".toList) := by
  intro h
  injection h with h1
  injection h1 with h2
  exact absurd h2 (by decide)

theorem ready_write_of_mem (env : ProcEnv) (w : UpdatePayload)
    (hw : w ∈ (process_meeting env).2.writes)
    (hst : w.status = some (.str "ready".toList)) :
    ∃ raw0 content ft fs ti, env.fetch = .ok () ∧ env.transcribe = .ok raw0 ∧
      env.analyze = .ok content ∧
      analysisOutcome (respParse content) (truncate20k raw0)
        (decide (raw0.length > 20000)) = .out ft fs ti ∧
      w = readyWriteOf ft fs ti := by
  have hfail : w ≠ failWrite := by
    intro h
    rw [h] at hst
    exact failWrite_status_ne_ready hst
  rcases process_shape env with ⟨_, hE⟩ | ⟨_, _, hE⟩ | ⟨r, _, _, _, hE⟩ |
    ⟨r, c, _, _, _, _, hE⟩ | ⟨r, c, ft, fs, ti, hf, htr, han, ho, hcase⟩
  · rw [hE] at hw; simp at hw; exact absurd hw hfail
  · rw [hE] at hw; simp at hw; exact absurd hw hfail
  · rw [hE] at hw; simp at hw; exact absurd hw hfail
  · rw [hE] at hw; simp at hw; exact absurd hw hfail
  · rcases hcase with ⟨_, hE⟩ | ⟨_, hE⟩ | ⟨_, hE⟩
    · rw [hE] at hw; simp at hw
      rcases hw with hw | hw
      · exact ⟨r, c, ft, fs, ti, hf, htr, han, ho, hw⟩
      · exact absurd hw hfail
    · rw [hE] at hw; simp at hw
      exact ⟨r, c, ft, fs, ti, hf, htr, han, ho, hw⟩
    · rw [hE] at hw; simp at hw
      exact ⟨r, c, ft, fs, ti, hf, htr, han, ho, hw⟩

theorem buildFormattedSummary_true_form {sv kp ai : JValue} {fs0 : List Char}
    (h : buildFormattedSummary sv kp ai true = some fs0) :
    ∃ s2, fs0 = s2 ++ truncNote := by
  cases sv with
  | str s =>
      replace h : (match appendBullets s ("\n\n**Key Points:**\n".toList) kp with
        | none => none
        | some s1 =>
            match appendBullets s1 ("\n**Action Items:**\n".toList) ai with
            | none => none
            | some s2 => some (s2 ++ truncNote)) = some fs0 := h
      cases h1 : appendBullets s ("\n\n**Key Points:**\n".toList) kp with
      | none => rw [h1] at h; exact Option.noConfusion h
      | some s1 =>
          rw [h1] at h
          replace h : (match appendBullets s1 ("\n**Action Items:**\n".toList) ai with
            | none => none
            | some s2 => some (s2 ++ truncNote)) = some fs0 := h
          cases h2 : appendBullets s1 ("\n**Action Items:**\n".toList) ai with
          | none => rw [h2] at h; exact Option.noConfusion h
          | some s2 =>
              rw [h2] at h
              injection h with h3
              exact ⟨s2, h3.symm⟩
  | null => exact Option.noConfusion h
  | bool b => exact Option.noConfusion h
  | num n => exact Option.noConfusion h
  | arr l => exact Option.noConfusion h
  | obj l => exact Option.noConfusion h

theorem analysisOutcome_true_note {p : Option JValue} {raw : List Char}
    {ft : JValue} {fs : List Char} {ti : JValue}
    (h : analysisOutcome p raw true = .out ft fs ti) :
    hasSub noteCore fs = true := by
  cases p with
  | none =>
      unfold analysisOutcome at h
      injection h with e1 e2 e3
      rw [← e2]
      simp only [if_pos rfl]
      exact hasSub_append_left _ _ _ (by decide)
  | some v =>
      cases v with
      | obj fields =>
          replace h : analysisObjOutcome fields raw true = .out ft fs ti := h
          unfold analysisObjOutcome at h
          cases hs : pySlice30 (pyGetD fields ("title".toList) (.str [])) with
          | none => rw [hs] at h; exact AnalysisOut.noConfusion h
          | some ti0 =>
              rw [hs] at h
              cases h1 : buildFormattedSummary (pyGetD fields ("summary".toList) (.str []))
                  (pyGetD fields ("key_points".toList) (.arr []))
                  (pyGetD fields ("action_items".toList) (.arr [])) true with
              | none => rw [h1] at h; exact AnalysisOut.noConfusion h
              | some fs0 =>
                  rw [h1] at h
                  injection h with e1 e2 e3
                  rcases buildFormattedSummary_true_form h1 with ⟨s2, rfl⟩
                  rw [← e2]
                  exact hasSub_note_strip s2
      | null => exact AnalysisOut.noConfusion h
      | bool b => exact AnalysisOut.noConfusion h
      | num n => exact AnalysisOut.noConfusion h
      | str s => exact AnalysisOut.noConfusion h
      | arr l => exact AnalysisOut.noConfusion h

theorem process_result_truncate (env : ProcEnv) (raw0 : List Char)
    (htr : env.transcribe = .ok raw0) :
    (process_meeting env).1 =
      (process_meeting { env with transcribe := .ok (raw0.take 20000) }).1 := by
  rcases env with ⟨pt, f, tr, an, ur, uf, pu⟩
  obtain rfl : tr = .ok raw0 := htr
  cases f with
  | error e => rfl
  | ok u =>
    cases an with
    | error e => rfl
    | ok content =>
      show (afterAnalysis _ _ (analysisOutcome (respParse content) (truncate20k raw0)
          (decide (raw0.length > 20000)))).1 =
        (afterAnalysis _ _ (analysisOutcome (respParse content) (truncate20k (raw0.take 20000))
          (decide ((raw0.take 20000).length > 20000)))).1
      cases h1 : analysisOutcome (respParse content) (truncate20k raw0)
          (decide (raw0.length > 20000)) with
      | dynErr =>
          have h2 : analysisOutcome (respParse content) (truncate20k (raw0.take 20000))
              (decide ((raw0.take 20000).length > 20000)) = .dynErr :=
            (analysisOutcome_dynErr_iff (respParse content) _ _ _ _).mp h1
          rw [h2]
          rfl
      | out ft fs ti =>
          cases h2 : analysisOutcome (respParse content) (truncate20k (raw0.take 20000))
              (decide ((raw0.take 20000).length > 20000)) with
          | dynErr =>
              have h3 := (analysisOutcome_dynErr_iff (respParse content)
                (truncate20k (raw0.take 20000)) (truncate20k raw0)
                (decide ((raw0.take 20000).length > 20000))
                (decide (raw0.length > 20000))).mp h2
              rw [h1] at h3
              exact AnalysisOut.noConfusion h3
          | out ft' fs' ti' =>
              cases ur with
              | exn => rfl
              | noRows => rfl
              | ok =>
                  cases pt with
                  | none => rfl
                  | some tok => cases pu <;> rfl

theorem proc_effects_of_transcribe (env : ProcEnv) (raw0 : List Char)
    (hf : env.fetch = .ok ()) (htr : env.transcribe = .ok raw0) :
    (process_meeting env).2.truncated = decide (raw0.length > 20000) ∧
    (process_meeting env).2.structInput = some (truncate20k raw0) := by
  rcases process_shape env with ⟨h2, _⟩ | ⟨_, h2, _⟩ | ⟨r, _, h2, _, hE⟩ |
    ⟨r, c, _, h2, _, _, hE⟩ | ⟨r, c, ft, fs, ti, _, h2, _, _, hcase⟩
  · rw [hf] at h2; exact Except.noConfusion h2
  · rw [htr] at h2; exact Except.noConfusion h2
  · obtain rfl : raw0 = r := by rw [htr] at h2; exact Except.ok.inj h2
    rw [hE]; exact ⟨rfl, rfl⟩
  · obtain rfl : raw0 = r := by rw [htr] at h2; exact Except.ok.inj h2
    rw [hE]; exact ⟨rfl, rfl⟩
  · obtain rfl : raw0 = r := by rw [htr] at h2; exact Except.ok.inj h2
    rcases hcase with ⟨_, hE⟩ | ⟨_, hE⟩ | ⟨_, hE⟩ <;> rw [hE] <;> exact ⟨rfl, rfl⟩

/-! ## Claim C3 -/

/-- C3, counterexample.  The claim says that for transcripts longer
than 20000 characters the text passed to structuring AND STORED is
exactly the first 20000 characters.  The analyzed text is indeed the
20000-character prefix, but on a successful parse the handler stores
the model-returned `clean_transcript` (`main.py` lines 367 and 388):
here a 20001-character transcript is stored as the one-character
string `X`. -/
theorem C3_counterexample :
    rawLong.length = 20001 ∧
    (process_meeting envC3).2.structInput = some (List.replicate 20000 'a') ∧
    (process_meeting envC3).2.writes.head? =
      some (readyWriteOf (.str ['X']) (pyStrip truncNote) (.str [])) ∧
    (JValue.str ['X']) ≠ .str ((List.replicate 20001 'a').take 20000) := by
  have hlen : rawLong.length = 20001 := by
    unfold rawLong; rw [List.length_replicate]
  have hdec : decide (rawLong.length > 20000) = true := by rw [hlen]; rfl
  have hmin : min 20000 20001 = 20000 := by norm_num
  have htk : truncate20k rawLong = List.replicate 20000 'a' := by
    unfold truncate20k
    rw [hlen, if_pos (by norm_num)]
    show (List.replicate 20001 'a').take 20000 = _
    rw [List.take_replicate, hmin]
  have hcomp : analysisOutcome (respParse respC3) (truncate20k rawLong)
      (decide (rawLong.length > 20000)) =
      .out (.str ['X']) (pyStrip truncNote) (.str []) := by
    rw [hdec]
    rfl
  obtain ⟨hw, hsi, _⟩ := writes_head_of_out envC3 rawLong respC3 _ _ _ rfl rfl rfl hcomp
  refine ⟨hlen, ?_, hw, ?_⟩
  · rw [hsi, htk]
  · intro h
    injection h with h'
    have hl := congrArg List.length h'
    rw [show (['X'] : List Char).length = 1 from rfl, List.length_take,
      List.length_replicate] at hl
    omega

/-- C3, amended.  For transcripts of length at most 20000 the
`truncated` flag is false, the full transcript is passed to
structuring, and the degraded branch appends no footnote; for length
above 20000 the flag is true, exactly the first 20000 characters are
passed to structuring, and every ready persist carries the truncation
footnote in its summary.  The stored transcript, however, is the
model-returned `clean_transcript` when the parse succeeds (first 20000
characters only in the degraded branch, conjunct four).  The endpoint
result never depends on the transcript beyond its 20000-character
prefix, so a run never fails solely due to length (conjunct five). -/
theorem C3_corrected (env : ProcEnv) :
    (∀ raw0, env.fetch = .ok () → env.transcribe = .ok raw0 → raw0.length ≤ 20000 →
      (process_meeting env).2.truncated = false ∧
      (process_meeting env).2.structInput = some raw0) ∧
    (∀ raw0, env.fetch = .ok () → env.transcribe = .ok raw0 → raw0.length > 20000 →
      (process_meeting env).2.truncated = true ∧
      (process_meeting env).2.structInput = some (raw0.take 20000)) ∧
    (∀ raw0 content, env.fetch = .ok () → env.transcribe = .ok raw0 →
      env.analyze = .ok content → raw0.length > 20000 →
      ∀ w ∈ (process_meeting env).2.writes, w.status = some (.str "ready".toList) →
      ∃ s, w.summary = some (.str s) ∧ hasSub noteCore s = true) ∧
    (∀ raw0 content, env.fetch = .ok () → env.transcribe = .ok raw0 →
      env.analyze = .ok content → raw0.length ≤ 20000 → respParse content = none →
      (process_meeting env).2.writes.head? =
        some (readyWriteOf (.str raw0) degradedSummary .null)) ∧
    (∀ raw0, env.transcribe = .ok raw0 →
      (process_meeting env).1 =
        (process_meeting { env with transcribe := .ok (raw0.take 20000) }).1) := by
  refine ⟨?_, ?_, ?_, ?_, ?_⟩
  · intro raw0 hf htr hle
    obtain ⟨h1, h2⟩ := proc_effects_of_transcribe env raw0 hf htr
    refine ⟨?_, ?_⟩
    · rw [h1]; exact decide_eq_false (by omega)
    · rw [h2, show truncate20k raw0 = raw0 from by
        unfold truncate20k; rw [if_neg (by omega)]]
  · intro raw0 hf htr hgt
    obtain ⟨h1, h2⟩ := proc_effects_of_transcribe env raw0 hf htr
    refine ⟨?_, ?_⟩
    · rw [h1]; exact decide_eq_true hgt
    · rw [h2, show truncate20k raw0 = raw0.take 20000 from by
        unfold truncate20k; rw [if_pos hgt]]
  · intro raw0 content hf htr han hgt w hw hst
    obtain ⟨r, c, ft, fs, ti, hf', htr', han', ho, rfl⟩ := ready_write_of_mem env w hw hst
    obtain rfl : raw0 = r := by rw [htr] at htr'; exact Except.ok.inj htr'
    have hdec : decide (raw0.length > 20000) = true := decide_eq_true hgt
    rw [hdec] at ho
    exact ⟨fs, rfl, analysisOutcome_true_note ho⟩
  · intro raw0 content hf htr han hle hparse
    have hdec : decide (raw0.length > 20000) = false := decide_eq_false (by omega)
    have htk : truncate20k raw0 = raw0 := by unfold truncate20k; rw [if_neg (by omega)]
    have hcomp : analysisOutcome (respParse content) (truncate20k raw0)
        (decide (raw0.length > 20000)) = .out (.str raw0) degradedSummary .null := by
      rw [hparse, hdec, htk]
      simp [analysisOutcome]
    exact (writes_head_of_out env raw0 content _ _ _ hf htr han hcomp).1
  · intro raw0 htr
    exact process_result_truncate env raw0 htr

/-- C3, witness for the amended theorem at a short transcript. -/
theorem C3_witness :
    ("hi".toList.length ≤ 20000) ∧
    ((process_meeting envW2).2.truncated = false ∧
      (process_meeting envW2).2.structInput = some "hi".toList) ∧
    (process_meeting envW2).2.writes.head? =
      some (readyWriteOf (.str "hi".toList) degradedSummary .null) :=
  ⟨by decide, (C3_corrected envW2).1 "hi".toList rfl rfl (by decide),
   (C3_corrected envW2).2.2.2.1 "hi".toList "bad".toList rfl rfl rfl (by decide) rfl⟩

/-! ## Claim C7 -/

/-- C7, counterexample.  The claim says every ready persist carries a
non-empty transcript, even for the zero-length-transcript edge case.
False: an empty Whisper result with a malformed structuring response
is persisted as `status = ready` with `transcript = ""` (`main.py`
lines 398 and 406–411). -/
theorem C7_counterexample :
    (process_meeting envC7).1 = .ok ∧
    (process_meeting envC7).2.writes.map (fun w => (w.status, w.transcript)) =
      [(some (.str "ready".toList), some (.str []))] :=
  ⟨rfl, rfl⟩

/-- C7, amended.  A ready persist stores `clean_transcript` (or the
raw transcript when the parse fails or the key is absent); it is
non-empty whenever the raw transcript is non-empty and, on a
successful parse, the decoded `clean_transcript` value is a non-empty
string.  The zero-length-transcript edge case violates the original
invariant. -/
theorem C7_corrected (env : ProcEnv) :
    ∀ raw0 content, env.fetch = .ok () → env.transcribe = .ok raw0 →
      env.analyze = .ok content → raw0 ≠ [] →
      (respParse content = none ∨
        (∃ fields c, respParse content = some (.obj fields) ∧
          pyGetD fields "clean_transcript".toList (.str (truncate20k raw0)) = .str c ∧
          c ≠ [])) →
      ∀ w ∈ (process_meeting env).2.writes, w.status = some (.str "ready".toList) →
      ∃ c, w.transcript = some (.str c) ∧ c ≠ [] := by
  intro raw0 content hf htr han hne hcase w hw hst
  obtain ⟨r, c0, ft, fs, ti, hf', htr', han', ho, rfl⟩ := ready_write_of_mem env w hw hst
  obtain rfl : raw0 = r := by rw [htr] at htr'; exact Except.ok.inj htr'
  obtain rfl : content = c0 := by rw [han] at han'; exact Except.ok.inj han'
  rcases hcase with hparse | ⟨fields, c, hparse, hclean, hcne⟩
  · rw [hparse] at ho
    replace ho : AnalysisOut.out (.str (truncate20k raw0))
        (degradedSummary ++ if decide (raw0.length > 20000) = true then truncNote else [])
        .null = .out ft fs ti := ho
    injection ho with e1 e2 e3
    refine ⟨truncate20k raw0, ?_, truncate20k_ne_nil hne⟩
    show some ft = some (.str (truncate20k raw0))
    rw [← e1]
  · rw [hparse] at ho
    replace ho : analysisObjOutcome fields (truncate20k raw0)
        (decide (raw0.length > 20000)) = .out ft fs ti := ho
    unfold analysisObjOutcome at ho
    cases hs : pySlice30 (pyGetD fields ("title".toList) (.str [])) with
    | none => rw [hs] at ho; exact AnalysisOut.noConfusion ho
    | some ti0 =>
        rw [hs] at ho
        cases h1 : buildFormattedSummary (pyGetD fields ("summary".toList) (.str []))
            (pyGetD fields ("key_points".toList) (.arr []))
            (pyGetD fields ("action_items".toList) (.arr []))
            (decide (raw0.length > 20000)) with
        | none => rw [h1] at ho; exact AnalysisOut.noConfusion ho
        | some fs0 =>
            rw [h1] at ho
            injection ho with e1 e2 e3
            refine ⟨c, ?_, hcne⟩
            show some ft = some (.str c)
            rw [← e1, hclean]

/-- C7, witness for the amended theorem: a non-empty transcript with a
malformed response yields a ready persist whose transcript is not the
empty string. -/
theorem C7_witness :
    (readyWriteOf (.str "hi".toList) degradedSummary .null).transcript ≠
      some (.str []) := by
  have h := C7_corrected envW2 "hi".toList "bad".toList rfl rfl rfl (by decide) (Or.inl rfl)
    (readyWriteOf (.str "hi".toList) degradedSummary .null)
    (by rw [show (process_meeting envW2).2.writes =
        [readyWriteOf (.str "hi".toList) degradedSummary .null] from rfl]
        exact List.mem_singleton.mpr rfl) rfl
  rcases h with ⟨c, hc1, hc2⟩
  intro heq
  rw [hc1] at heq
  injection heq with h1
  injection h1 with h2
  exact hc2 h2

theorem diarStructured_okRes {dd : JValue} {td : List Char}
    (h : diarStructured dd = .okRes td) :
    ∃ fields, dd = .obj fields ∧ hasKey fields "speakers".toList = true ∧
      hasKey fields "segments".toList = true := by
  cases dd with
  | obj fields =>
      refine ⟨fields, rfl, ?_⟩
      replace h : diarStructuredObj fields = .okRes td := h
      unfold diarStructuredObj at h
      cases hk : hasKey fields "speakers".toList && hasKey fields "segments".toList with
      | true =>
          rw [Bool.and_eq_true] at hk
          exact ⟨hk.1, hk.2⟩
      | false => rw [hk] at h; exact DynRes.noConfusion h
  | null => exact DynRes.noConfusion h
  | bool b => exact DynRes.noConfusion h
  | num n => exact DynRes.noConfusion h
  | str str =>
      replace h : (if hasSub "speakers".toList str && hasSub "segments".toList str
        then DynRes.fatalErr else DynRes.fallbackErr) = .okRes td := h
      cases hk : hasSub "speakers".toList str && hasSub "segments".toList str with
      | true => rw [hk] at h; exact DynRes.noConfusion h
      | false => rw [hk] at h; exact DynRes.noConfusion h
  | arr l =>
      replace h : (if (l.any (fun e => pyKeyEq e (.str "speakers".toList))) &&
          (l.any (fun e => pyKeyEq e (.str "segments".toList)))
        then DynRes.fatalErr else DynRes.fallbackErr) = .okRes td := h
      cases hk : (l.any (fun e => pyKeyEq e (.str "speakers".toList))) &&
          (l.any (fun e => pyKeyEq e (.str "segments".toList))) with
      | true => rw [hk] at h; exact DynRes.noConfusion h
      | false => rw [hk] at h; exact DynRes.noConfusion h

theorem hasKey_ne_nil {fields : List (List Char × JValue)} {k : List Char}
    (h : hasKey fields k = true) : fields ≠ [] := by
  intro hf
  rw [hf] at h
  simp [hasKey, pyGetKey] at h

theorem diarize_shape (env : DiarEnv) :
    (∃ c, (diarize_meeting env).1 = .http c ∧
       ((diarize_meeting env).2.writes = [] ∨
        (∃ td, (diarize_meeting env).2.writes =
          [{ transcript_diarized := some (.str td) }]) ∨
        (∃ dd td, diarStructured dd = .okRes td ∧
          (diarize_meeting env).2.writes =
            [{ diarization_json := some dd, transcript_diarized := some (.str td) }]))) ∨
    (∃ m, env.meeting = some m ∧
       diarize_meeting env =
        (.ok { diarized := true
               cached := some true
               diarization := some m.diarization_json },
         { llmCalls := 0, writes := [] })) ∨
    (∃ m s dd td, env.meeting = some m ∧ m.transcript = .str s ∧
       (pyStrip s).isEmpty = false ∧ pyTruthy m.diarization_json = false ∧
       diarStructured dd = .okRes td ∧
       diarize_meeting env =
        (.ok { diarized := true
               cached := some false
               diarization := some dd },
         { llmCalls := 1
           writes := [{ diarization_json := some dd
                        transcript_diarized := some (.str td) }] })) ∨
    (∃ td, diarize_meeting env =
      (.ok { diarized := false
             error := some "json_parse_failed".toList
             fallback := some true },
       { llmCalls := 2
         writes := [{ transcript_diarized := some (.str td) }] })) := by
  rcases env with ⟨mo, l1, l2, u1, u2⟩
  cases mo with
  | none => exact Or.inl ⟨404, rfl, Or.inl rfl⟩
  | some m =>
    cases ht : pyTruthy m.transcript with
    | false =>
        have hD : diarize_meeting ⟨some m, l1, l2, u1, u2⟩ = (.http 400, {}) := by
          simp only [diarize_meeting]
          rw [ht]
          rfl
        exact Or.inl ⟨400, by rw [hD], Or.inl (by rw [hD])⟩
    | true =>
        cases hts : m.transcript with
        | null => rw [hts] at ht; exact absurd ht (by decide)
        | bool b =>
            have hD : diarize_meeting ⟨some m, l1, l2, u1, u2⟩ = (.http 500, {}) := by
              simp only [diarize_meeting]
              rw [hts] at ht
              rw [hts, ht]
              rfl
            exact Or.inl ⟨500, by rw [hD], Or.inl (by rw [hD])⟩
        | num n =>
            have hD : diarize_meeting ⟨some m, l1, l2, u1, u2⟩ = (.http 500, {}) := by
              simp only [diarize_meeting]
              rw [hts] at ht
              rw [hts, ht]
              rfl
            exact Or.inl ⟨500, by rw [hD], Or.inl (by rw [hD])⟩
        | arr l =>
            have hD : diarize_meeting ⟨some m, l1, l2, u1, u2⟩ = (.http 500, {}) := by
              simp only [diarize_meeting]
              rw [hts] at ht
              rw [hts, ht]
              rfl
            exact Or.inl ⟨500, by rw [hD], Or.inl (by rw [hD])⟩
        | obj o =>
            have hD : diarize_meeting ⟨some m, l1, l2, u1, u2⟩ = (.http 500, {}) := by
              simp only [diarize_meeting]
              rw [hts] at ht
              rw [hts, ht]
              rfl
            exact Or.inl ⟨500, by rw [hD], Or.inl (by rw [hD])⟩
        | str s =>
            rw [hts] at ht
            cases hse : (pyStrip s).isEmpty with
            | true =>
                have hD : diarize_meeting ⟨some m, l1, l2, u1, u2⟩ = (.http 400, {}) := by
                  simp only [diarize_meeting, hts, ht, hse]
                  simp
                exact Or.inl ⟨400, by rw [hD], Or.inl (by rw [hD])⟩
            | false =>
                cases hdj : pyTruthy m.diarization_json with
                | true =>
                    have hD : diarize_meeting ⟨some m, l1, l2, u1, u2⟩ =
                        (.ok { diarized := true
                               cached := some true
                               diarization := some m.diarization_json },
                         { llmCalls := 0, writes := [] }) := by
                      simp only [diarize_meeting, hts, ht, hse, hdj]
                      simp
                    exact Or.inr (Or.inl ⟨m, rfl, hD⟩)
                | false =>
                    cases l1 with
                    | error e =>
                        have hD : diarize_meeting ⟨some m, .error e, l2, u1, u2⟩ =
                            (.http 500, { llmCalls := 1 }) := by
                          simp only [diarize_meeting, hts, ht, hse, hdj]
                          simp
                        exact Or.inl ⟨500, by rw [hD], Or.inl (by rw [hD])⟩
                    | ok content =>
                        have hD : diarize_meeting ⟨some m, .ok content, l2, u1, u2⟩ =
                            diarAfterParse ⟨some m, .ok content, l2, u1, u2⟩
                              (respParse content) := by
                          simp only [diarize_meeting, hts, ht, hse, hdj]
                          simp
                        rw [hD]
                        cases hp : respParse content with
                        | none =>
                            show _ ∨ _
                            rw [show diarAfterParse ⟨some m, .ok content, l2, u1, u2⟩ none =
                              fallbackPath ⟨some m, .ok content, l2, u1, u2⟩ from rfl]
                            cases l2 with
                            | error e2 => exact Or.inl ⟨500, rfl, Or.inl rfl⟩
                            | ok c2 =>
                                cases u2 with
                                | exn => exact Or.inl ⟨500, rfl, Or.inr (Or.inl ⟨pyStrip c2, rfl⟩)⟩
                                | noRows => exact Or.inl ⟨500, rfl, Or.inr (Or.inl ⟨pyStrip c2, rfl⟩)⟩
                                | ok => exact Or.inr (Or.inr (Or.inr ⟨pyStrip c2, rfl⟩))
                        | some dd =>
                            rw [show diarAfterParse ⟨some m, .ok content, l2, u1, u2⟩ (some dd) =
                              diarAfterStructured ⟨some m, .ok content, l2, u1, u2⟩ dd
                                (diarStructured dd) from rfl]
                            cases hd : diarStructured dd with
                            | fallbackErr =>
                                rw [show diarAfterStructured ⟨some m, .ok content, l2, u1, u2⟩ dd
                                  DynRes.fallbackErr =
                                  fallbackPath ⟨some m, .ok content, l2, u1, u2⟩ from rfl]
                                cases l2 with
                                | error e2 => exact Or.inl ⟨500, rfl, Or.inl rfl⟩
                                | ok c2 =>
                                    cases u2 with
                                    | exn =>
                                        exact Or.inl ⟨500, rfl, Or.inr (Or.inl ⟨pyStrip c2, rfl⟩)⟩
                                    | noRows =>
                                        exact Or.inl ⟨500, rfl, Or.inr (Or.inl ⟨pyStrip c2, rfl⟩)⟩
                                    | ok => exact Or.inr (Or.inr (Or.inr ⟨pyStrip c2, rfl⟩))
                            | fatalErr => exact Or.inl ⟨500, rfl, Or.inl rfl⟩
                            | okRes td =>
                                cases u1 with
                                | exn => exact Or.inl ⟨500, rfl, Or.inr (Or.inr ⟨dd, td, hd, rfl⟩)⟩
                                | noRows => exact Or.inl ⟨500, rfl, Or.inr (Or.inr ⟨dd, td, hd, rfl⟩)⟩
                                | ok =>
                                    exact Or.inr (Or.inr (Or.inl
                                      ⟨m, s, dd, td, rfl, hts, hse, hdj, hd, rfl⟩))

theorem pyTruthy_str_of_strip {s : List Char} (hs : (pyStrip s).isEmpty = false) :
    pyTruthy (.str s) = true := by
  cases s with
  | nil => exact absurd hs (by decide)
  | cons c s' => rfl

theorem cached_hit (env : DiarEnv) (m : Meeting) (s : List Char)
    (hm : env.meeting = some m) (ht : m.transcript = .str s)
    (hs : (pyStrip s).isEmpty = false) (hd : pyTruthy m.diarization_json = true) :
    diarize_meeting env = (.ok { diarized := true
                                 cached := some true
                                 diarization := some m.diarization_json },
      { llmCalls := 0, writes := [] }) := by
  have hst : pyTruthy (JValue.str s) = true := pyTruthy_str_of_strip hs
  rcases env with ⟨mo, l1, l2, u1, u2⟩
  obtain rfl : mo = some m := hm
  simp only [diarize_meeting, ht, hst, hs, hd]
  simp

/-! ## Claim C4 -/

/-- C4, counterexample.  The claim says every meeting whose record
already has `diarization_json` present gets an immediate `cached:true`
answer.  False: the transcript guard (`main.py` line 84) runs before
the cache check (line 91), so a record with a cached diarization but a
`NULL` transcript is rejected with 400 instead. -/
theorem C4_counterexample :
    pyTruthy mC4.diarization_json = true ∧
    diarize_meeting envC4 = (.http 400, { llmCalls := 0, writes := [] }) ∧
    ∀ b, (diarize_meeting envC4).1 ≠ .ok b := by
  refine ⟨rfl, rfl, ?_⟩
  intro b h
  rw [show (diarize_meeting envC4).1 = .http 400 from rfl] at h
  exact DiarOutcome.noConfusion h

/-- C4, amended.  Diarization is idempotent for meetings whose stored
transcript is a non-blank string: with `diarization_json` truthy the
call returns `cached = true` with the stored value unchanged, issuing
no GPT call and no store write; consequently a second call on the
record produced by a successful structured first call returns
`cached:true` with the identical `diarization_json`. -/
theorem C4_corrected :
    (∀ env m s, env.meeting = some m → m.transcript = .str s →
      (pyStrip s).isEmpty = false → pyTruthy m.diarization_json = true →
      diarize_meeting env = (.ok { diarized := true
                                   cached := some true
                                   diarization := some m.diarization_json },
        { llmCalls := 0, writes := [] })) ∧
    (∀ env env2 m b eff dd w, env.meeting = some m →
      diarize_meeting env = (.ok b, eff) → b.cached = some false →
      b.diarization = some dd → eff.writes = [w] →
      env2.meeting = some (applyPayload m w) →
      diarize_meeting env2 = (.ok { diarized := true
                                    cached := some true
                                    diarization := some dd },
        { llmCalls := 0, writes := [] })) := by
  constructor
  · intro env m s hm ht hs hd
    exact cached_hit env m s hm ht hs hd
  · intro env env2 m b eff dd w hm hrun hc hd hw hm2
    rcases diarize_shape env with ⟨c0, h1, _⟩ | ⟨m', hm', hE⟩ |
      ⟨m', s, dd', td, hm', hts, hse, hdj, hok, hE⟩ | ⟨td, hE⟩
    · rw [hrun] at h1
      exact DiarOutcome.noConfusion h1
    · have hpair := hrun.symm.trans hE
      have hfst := congrArg Prod.fst hpair
      injection hfst with hb
      rw [hb] at hc
      injection hc with h'
      exact Bool.noConfusion h'
    · obtain rfl : m = m' := Option.some.inj (hm.symm.trans hm')
      have hpair := hrun.symm.trans hE
      have hfst : DiarOutcome.ok b = .ok { statusMsg := "success".toList
                                           diarized := true
                                           cached := some false
                                           diarization := some dd' } :=
        congrArg Prod.fst hpair
      have hsnd : eff = ({ llmCalls := 1
                           writes := [{ diarization_json := some dd'
                                        transcript_diarized := some (JValue.str td) }] } :
          DiarEffects) :=
        congrArg Prod.snd hpair
      injection hfst with hb
      subst hb
      have hdd : dd = dd' := by
        have h2 : some dd' = some dd := hd
        exact (Option.some.inj h2).symm
      subst hdd
      have hww : w = ({ diarization_json := some dd
                        transcript_diarized := some (JValue.str td) } : UpdatePayload) := by
        rw [hsnd] at hw
        have hw2 : [({ diarization_json := some dd
                       transcript_diarized := some (JValue.str td) } : UpdatePayload)] =
            [w] := hw
        injection hw2 with h1 h2
        exact h1.symm
      subst hww
      have htr2 : (applyPayload m { diarization_json := some dd
                                    transcript_diarized := some (JValue.str td) }).transcript =
          .str s := by
        show m.transcript = .str s
        exact hts
      have hdj2 : pyTruthy (applyPayload m { diarization_json := some dd
                                             transcript_diarized :=
                                               some (JValue.str td) }).diarization_json =
          true := by
        show pyTruthy dd = true
        rcases diarStructured_okRes hok with ⟨fields, rfl, hk1, _⟩
        cases fields with
        | nil => exact absurd rfl (hasKey_ne_nil hk1)
        | cons p rest => rfl
      have hfin := cached_hit env2 _ s hm2 htr2 hse hdj2
      rw [hfin]
      rfl
    · have hpair := hrun.symm.trans hE
      have hfst := congrArg Prod.fst hpair
      injection hfst with hb
      rw [hb] at hc
      have hc2 : (none : Option Bool) = some false := hc
      exact Option.noConfusion hc2

/-- C4 witness: the amended idempotence law at a concrete cached record. -/
theorem C4_witness :
    diarize_meeting envW4 = (.ok { diarized := true
                                   cached := some true
                                   diarization := some mW4.diarization_json },
      { llmCalls := 0, writes := [] }) :=
  C4_corrected.1 envW4 mW4 "hi".toList rfl rfl (by decide) (by decide)

/-! ## Claim C5 -/

set_option maxRecDepth 40000 in
/-- C5, counterexample.  The claim says a persisted `diarization_json`
is always fully valid against its schema, with every
`segments[i].speaker_id` resolving in `speakers`.  False: the code only
checks that both top-level keys exist (`main.py` line 165) and maps any
unresolved `speaker_id` to the label "Unknown Speaker" (line 171), so a
response whose one segment references a speaker absent from the (empty)
speaker list is still persisted verbatim. -/
theorem C5_counterexample :
    ((diarize_meeting envC5).2.writes.map (fun w => w.diarization_json)) = [some ddC5] ∧
    diarizationFullyValid ddC5 = false := by
  exact ⟨rfl, rfl⟩

/-- C5, amended.  Every `diarization_json` value the diarization
pipeline persists is a JSON object containing both the `speakers` and
the `segments` keys — the only validation the code performs; unresolved
`speaker_id` references are not rejected. -/
theorem C5_corrected (env : DiarEnv) (w : UpdatePayload) (dd : JValue)
    (hw : w ∈ (diarize_meeting env).2.writes) (hd : w.diarization_json = some dd) :
    ∃ fields, dd = .obj fields ∧ hasKey fields "speakers".toList = true ∧
      hasKey fields "segments".toList = true := by
  rcases diarize_shape env with ⟨c, h1, hws⟩ | ⟨m, hm, hE⟩ |
    ⟨m, s, dd', td, hm, hts, hse, hdj, hok, hE⟩ | ⟨td, hE⟩
  · rcases hws with h0 | ⟨td, h0⟩ | ⟨dd2, td, hok2, h0⟩
    · rw [h0] at hw
      exact absurd hw (List.not_mem_nil w)
    · rw [h0] at hw
      have hwe : w = { transcript_diarized := some (.str td) } := List.mem_singleton.mp hw
      rw [hwe] at hd
      have hd2 : (none : Option JValue) = some dd := hd
      exact Option.noConfusion hd2
    · rw [h0] at hw
      have hwe : w = { diarization_json := some dd2
                       transcript_diarized := some (.str td) } := List.mem_singleton.mp hw
      rw [hwe] at hd
      have hd2 : some dd2 = some dd := hd
      obtain rfl : dd2 = dd := Option.some.inj hd2
      exact diarStructured_okRes hok2
  · rw [hE] at hw
    exact absurd hw (List.not_mem_nil w)
  · rw [hE] at hw
    have hwe : w = { diarization_json := some dd'
                     transcript_diarized := some (.str td) } := List.mem_singleton.mp hw
    rw [hwe] at hd
    have hd2 : some dd' = some dd := hd
    obtain rfl : dd' = dd := Option.some.inj hd2
    exact diarStructured_okRes hok
  · rw [hE] at hw
    have hwe : w = { transcript_diarized := some (.str td) } := List.mem_singleton.mp hw
    rw [hwe] at hd
    have hd2 : (none : Option JValue) = some dd := hd
    exact Option.noConfusion hd2

set_option maxRecDepth 40000 in
/-- C5 witness: the amended invariant at the concrete persisted write
of the `envC5` run. -/
theorem C5_witness :
    ∃ fields, ddC5 = .obj fields ∧ hasKey fields "speakers".toList = true ∧
      hasKey fields "segments".toList = true :=
  C5_corrected envC5
    { diarization_json := some ddC5
      transcript_diarized := some (.str "Unknown Speaker: hi".toList) } ddC5
    (List.Mem.head _) rfl

/-! ## Claim C9 -/

/-- C9: the diarization pipeline never writes `status`, `transcript`
or `summary`; a structured-success result (`cached = false`) comes with
exactly one store write carrying `diarization_json` and
`transcript_diarized`; a fallback result (`fallback = true`) is exactly
the body `\x7bdiarized: false, error: "json_parse_failed",
fallback: true\x7d` and comes with exactly one store write carrying
only `transcript_diarized`. -/
theorem C9_confirmed (env : DiarEnv) :
    (∀ w ∈ (diarize_meeting env).2.writes,
       w.status = none ∧ w.transcript = none ∧ w.summary = none) ∧
    (∀ b, (diarize_meeting env).1 = .ok b → b.cached = some false →
       ∃ dd td, (diarize_meeting env).2.writes =
         [{ diarization_json := some dd, transcript_diarized := some (.str td) }]) ∧
    (∀ b, (diarize_meeting env).1 = .ok b → b.fallback = some true →
       b = { diarized := false
             error := some "json_parse_failed".toList
             fallback := some true } ∧
       ∃ td, (diarize_meeting env).2.writes =
         [{ transcript_diarized := some (.str td) }]) := by
  rcases diarize_shape env with ⟨c, h1, hws⟩ | ⟨m, hm, hE⟩ |
    ⟨m, s, dd, td, hm, hts, hse, hdj, hok, hE⟩ | ⟨td, hE⟩
  · refine ⟨?_, ?_, ?_⟩
    · intro w hw
      rcases hws with h0 | ⟨td, h0⟩ | ⟨dd, td, hok2, h0⟩
      · rw [h0] at hw
        exact absurd hw (List.not_mem_nil w)
      · rw [h0] at hw
        have hwe : w = { transcript_diarized := some (.str td) } := List.mem_singleton.mp hw
        rw [hwe]
        exact ⟨rfl, rfl, rfl⟩
      · rw [h0] at hw
        have hwe : w = { diarization_json := some dd
                         transcript_diarized := some (.str td) } := List.mem_singleton.mp hw
        rw [hwe]
        exact ⟨rfl, rfl, rfl⟩
    · intro b hb _
      rw [h1] at hb
      exact DiarOutcome.noConfusion hb
    · intro b hb _
      rw [h1] at hb
      exact DiarOutcome.noConfusion hb
  · have h1 : (diarize_meeting env).1 =
        .ok { diarized := true
              cached := some true
              diarization := some m.diarization_json } := by rw [hE]
    have h2 : (diarize_meeting env).2.writes = [] := by rw [hE]
    refine ⟨?_, ?_, ?_⟩
    · intro w hw
      rw [h2] at hw
      exact absurd hw (List.not_mem_nil w)
    · intro b hb hc
      rw [h1] at hb
      injection hb with hbb
      rw [← hbb] at hc
      exact absurd (show (some true : Option Bool) = some false from hc) (by decide)
    · intro b hb hf
      rw [h1] at hb
      injection hb with hbb
      rw [← hbb] at hf
      exact absurd (show (none : Option Bool) = some true from hf) (by decide)
  · have h1 : (diarize_meeting env).1 =
        .ok { diarized := true
              cached := some false
              diarization := some dd } := by rw [hE]
    have h2 : (diarize_meeting env).2.writes =
        [{ diarization_json := some dd
           transcript_diarized := some (.str td) }] := by rw [hE]
    refine ⟨?_, ?_, ?_⟩
    · intro w hw
      rw [h2] at hw
      have hwe : w = { diarization_json := some dd
                       transcript_diarized := some (.str td) } := List.mem_singleton.mp hw
      rw [hwe]
      exact ⟨rfl, rfl, rfl⟩
    · intro b hb hc
      exact ⟨dd, td, h2⟩
    · intro b hb hf
      rw [h1] at hb
      injection hb with hbb
      rw [← hbb] at hf
      exact absurd (show (none : Option Bool) = some true from hf) (by decide)
  · have h1 : (diarize_meeting env).1 =
        .ok { diarized := false
              error := some "json_parse_failed".toList
              fallback := some true } := by rw [hE]
    have h2 : (diarize_meeting env).2.writes =
        [{ transcript_diarized := some (.str td) }] := by rw [hE]
    refine ⟨?_, ?_, ?_⟩
    · intro w hw
      rw [h2] at hw
      have hwe : w = { transcript_diarized := some (.str td) } := List.mem_singleton.mp hw
      rw [hwe]
      exact ⟨rfl, rfl, rfl⟩
    · intro b hb hc
      rw [h1] at hb
      injection hb with hbb
      rw [← hbb] at hc
      exact absurd (show (none : Option Bool) = some false from hc) (by decide)
    · intro b hb hf
      rw [h1] at hb
      injection hb with hbb
      exact ⟨hbb.symm, td, h2⟩

set_option maxRecDepth 40000 in
/-- C9 witness: the fallback frame condition at the concrete run
`envW9`, whose first response is unparseable. -/
theorem C9_witness :
    ∃ td, (diarize_meeting envW9).2.writes =
      [{ transcript_diarized := some (.str td) }] :=
  ((C9_confirmed envW9).2.2 { diarized := false
                              error := some "json_parse_failed".toList
                              fallback := some true } rfl rfl).2
